import Mathlib

/-!
Verification of the serializer walkthrough in `Fabric_method.py`.

The file embeds, as Lean functions, the Python module's data model (`Song`),
its four serializer classes (`SongSerializerBad`,
`SongSerializerWihoutSolidDependecies`, `SongSerializerBasicFabric`,
`SongSerializerStatiocBasicFabric`), and the behaviour of the two library
calls the module uses on its data: `json.dumps` on the three-key payload
dict, and `xml.etree.ElementTree.tostring(..., encoding='unicode')` on the
`song` element tree.  Fallible Python code is embedded as `Except PyError`.
Independent models of a JSON reader and an XML reader, written from the
formats' grammars, are used to state the parse-back properties.
-/

/-- A Python value usable as the `song_id` field.  The module never pins the
type down; the spec's data model says the identifier is a string or an
integer, so the embedding carries both alternatives. -/
inductive Ident where
  | str (s : String)
  | int (n : Int)
  deriving DecidableEq, Repr

/-- The `Song` class (src lines 21-25): a plain holder of the three fields
assigned in `__init__`. -/
structure Song where
  song_id : Ident
  title : String
  artist : String
  deriving DecidableEq, Repr

/-- The Python exceptions the module can raise: `ValueError(format)` from the
dispatchers (src lines 46, 75, 129, 182), the `TypeError` that
`ElementTree.tostring` raises when an attribute value is not a string, and
the `NameError` raised when a body references an unbound name (the static
fabric's methods reference `self`, which none of them binds). -/
inductive PyError where
  | valueError (detail : String)
  | typeError (detail : String)
  | nameError (name : String)
  deriving DecidableEq, Repr

/-! ### Decimal integer printing

`json.dumps` renders a Python `int` as its decimal representation
(`repr`): the digits of the absolute value, preceded by `-` when negative.
The `TypeError` message of `ElementTree` interpolates the same
representation via `%r`. -/

/-- The character for a single decimal digit value. -/
def decDigitChar (n : Nat) : Char := Char.ofNat (48 + n)

/-- Digits of `n` in base 10, most significant first, empty for `0`.  The
first argument is fuel (any amount at least `n` is enough), so that the
recursion is structural and the function evaluates by `decide`. -/
def natDigitsCore : Nat → Nat → List Char
  | _, 0 => []
  | 0, _ + 1 => []
  | fuel + 1, n + 1 =>
    natDigitsCore fuel ((n + 1) / 10) ++ [decDigitChar ((n + 1) % 10)]

/-- Digits of `n` in base 10, most significant first, empty for `0`. -/
def natDigits (n : Nat) : List Char := natDigitsCore n n

/-- Decimal representation of a natural number, as `repr` prints it. -/
def natToDecimal (n : Nat) : List Char :=
  if n = 0 then ['0'] else natDigits n

/-- Decimal representation of a Python `int`, as `repr` prints it. -/
def intToDecimal (i : Int) : List Char :=
  if i < 0 then '-' :: natToDecimal (-i).toNat else natToDecimal i.toNat

/-! ### The JSON encoder used by the module

`_serialize_to_json` builds the dict `{'id': ..., 'title': ..., 'artist': ...}`
(insertion order `id`, `title`, `artist`) and returns `json.dumps(payload)`
(src lines 131-137).  With its default arguments `json.dumps` separates items
by `", "` and keys from values by `": "`, and escapes strings in ASCII mode:
`"` and `\` get two-character escapes, the control characters BS, TAB, LF,
FF, CR get their short escapes, every other character from U+0020 to U+007E
is copied verbatim, and every remaining character becomes `\uXXXX` with four
lowercase hex digits — one escape for code points below U+10000, a UTF-16
surrogate pair of two escapes above. -/

/-- Lowercase hex digit character, as Python's `\u%04x` formatting emits. -/
def jsonHexDigit (n : Nat) : Char :=
  if n < 10 then Char.ofNat (48 + n) else Char.ofNat (87 + n)

/-- The four hex digits of `n < 0x10000`, as `\u%04x` formats them. -/
def jsonHex4 (n : Nat) : List Char :=
  [jsonHexDigit (n / 4096 % 16), jsonHexDigit (n / 256 % 16),
   jsonHexDigit (n / 16 % 16), jsonHexDigit (n % 16)]

/-- How `json.dumps` (ASCII mode, the default) renders one character of a
string value. -/
def jsonEscapeChar (c : Char) : List Char :=
  if c = '"' then ['\\', '"']
  else if c = '\\' then ['\\', '\\']
  else if c = Char.ofNat 8 then ['\\', 'b']
  else if c = Char.ofNat 9 then ['\\', 't']
  else if c = Char.ofNat 10 then ['\\', 'n']
  else if c = Char.ofNat 12 then ['\\', 'f']
  else if c = Char.ofNat 13 then ['\\', 'r']
  else if 32 ≤ c.toNat ∧ c.toNat ≤ 126 then [c]
  else if c.toNat < 65536 then '\\' :: 'u' :: jsonHex4 c.toNat
  else
    ('\\' :: 'u' :: jsonHex4 (55296 + (c.toNat - 65536) / 1024)) ++
    ('\\' :: 'u' :: jsonHex4 (56320 + (c.toNat - 65536) % 1024))

/-- The escaped body of a JSON string literal. -/
def jsonEscapeString (s : String) : List Char :=
  (s.data.map jsonEscapeChar).flatten

/-- A complete JSON string literal, quotes included. -/
def jsonEncodeString (s : String) : List Char :=
  '"' :: (jsonEscapeString s ++ ['"'])

/-- How `json.dumps` renders the `id` value: a string literal for a string,
the decimal digits for an int. -/
def jsonEncodeIdent : Ident → List Char
  | .str s => jsonEncodeString s
  | .int n => intToDecimal n

/-- `json.dumps({'id': song.song_id, 'title': song.title, 'artist': song.artist})`
with default separators, keys in insertion order (src lines 131-137). -/
def jsonDumpsSong (song : Song) : String :=
  String.mk ((String.data "\x7b\"id\": ") ++ jsonEncodeIdent song.song_id ++
    (String.data ", \"title\": ") ++ jsonEncodeString song.title ++
    (String.data ", \"artist\": ") ++ jsonEncodeString song.artist ++ ['\x7d'])

/-! ### The XML encoder used by the module

`_serialize_to_xml` builds `Element('song', attrib={'id': song.song_id})`
with `SubElement`s `title` then `artist` carrying the fields as `.text`, and
returns `et.tostring(song_element, encoding='unicode')` (src lines 139-145).
`tostring` writes no XML declaration for unicode output; it writes the root
start tag with the one attribute, each child either as
`<tag>escaped text</tag>` or — when the text is empty, children being absent —
as the short form `<tag />`; text escapes `&`, `<`, `>`, and attribute values
escape `&`, `<`, `>`, `"`, CR, LF, TAB.  An attribute value that is not a
string makes the serializer raise
`TypeError("cannot serialize %r (type %s)")`. -/

/-- `ElementTree`'s text (character-data) escaping of one character. -/
def xmlEscapeCdataChar (c : Char) : List Char :=
  if c = '&' then String.data "&amp;"
  else if c = '<' then String.data "&lt;"
  else if c = '>' then String.data "&gt;"
  else [c]

/-- `ElementTree`'s attribute-value escaping of one character. -/
def xmlEscapeAttribChar (c : Char) : List Char :=
  if c = '&' then String.data "&amp;"
  else if c = '<' then String.data "&lt;"
  else if c = '>' then String.data "&gt;"
  else if c = '"' then String.data "&quot;"
  else if c = Char.ofNat 13 then String.data "&#13;"
  else if c = Char.ofNat 10 then String.data "&#10;"
  else if c = Char.ofNat 9 then String.data "&#09;"
  else [c]

/-- Escaped character data. -/
def xmlEscapeCdata (s : String) : List Char :=
  (s.data.map xmlEscapeCdataChar).flatten

/-- Escaped attribute value. -/
def xmlEscapeAttrib (s : String) : List Char :=
  (s.data.map xmlEscapeAttribChar).flatten

/-- How `tostring` writes one child element holding only text: the short
empty-element form when the text is empty (it is falsy and the element has
no children), the full form otherwise. -/
def etSerializeLeaf (tag : String) (text : String) : List Char :=
  if text = "" then ('<' :: tag.data) ++ String.data " />"
  else ('<' :: tag.data) ++ ('>' :: xmlEscapeCdata text) ++
    ('<' :: '/' :: tag.data) ++ ['>']

/-- `et.tostring(song_element, encoding='unicode')` on the tree built by
`_serialize_to_xml`: root `song` with the single attribute `id`, children
`title` then `artist`.  A non-string `id` makes `tostring` raise
`TypeError` while escaping the attribute value. -/
def etTostringSong (song : Song) : Except PyError String :=
  match song.song_id with
  | .int n => .error (.typeError (String.mk
      (String.data "cannot serialize " ++ intToDecimal n ++
       String.data " (type int)")))
  | .str s => .ok (String.mk
      (String.data "<song id=\"" ++ xmlEscapeAttrib s ++ String.data "\">" ++
       etSerializeLeaf "title" song.title ++
       etSerializeLeaf "artist" song.artist ++
       String.data "</song>"))

/-! ### The serializer classes -/

namespace SongSerializerBad

/-- `SongSerializerBad.serialize` (src lines 28-46): the format branching is
inlined; each branch performs exactly the computations modelled by
`jsonDumpsSong` and `etTostringSong`; an unrecognized format reaches
`raise ValueError(format)`. -/
def serialize (song : Song) (format : String) : Except PyError String :=
  if format = "JSON" then .ok (jsonDumpsSong song)
  else if format = "XML" then etTostringSong song
  else .error (.valueError format)

end SongSerializerBad

namespace SongSerializerWihoutSolidDependecies

/-- `_serialize_to_json` (src lines 77-83). -/
def serialize_to_json (song : Song) : Except PyError String :=
  .ok (jsonDumpsSong song)

/-- `_serialize_to_xml` (src lines 85-91). -/
def serialize_to_xml (song : Song) : Except PyError String :=
  etTostringSong song

/-- `SongSerializerWihoutSolidDependecies.serialize` (src lines 69-75). -/
def serialize (song : Song) (format : String) : Except PyError String :=
  if format = "JSON" then serialize_to_json song
  else if format = "XML" then serialize_to_xml song
  else .error (.valueError format)

end SongSerializerWihoutSolidDependecies

namespace SongSerializerBasicFabric

/-- `_serialize_to_json` (src lines 131-137). -/
def serialize_to_json (song : Song) : Except PyError String :=
  .ok (jsonDumpsSong song)

/-- `_serialize_to_xml` (src lines 139-145). -/
def serialize_to_xml (song : Song) : Except PyError String :=
  etTostringSong song

/-- `_get_serializer` (src lines 123-129): the factory method.  Comparison
against the recognized tags is Python `==` on strings, i.e. exact and
case-sensitive; anything else raises `ValueError(format)`. -/
def get_serializer (format : String) :
    Except PyError (Song → Except PyError String) :=
  if format = "JSON" then .ok serialize_to_json
  else if format = "XML" then .ok serialize_to_xml
  else .error (.valueError format)

/-- `serialize` (src lines 119-121): obtain the serializer from the factory
and apply it.  There is no `try`/`except`, so an exception from
`_get_serializer` propagates unchanged. -/
def serialize (song : Song) (format : String) : Except PyError String :=
  (get_serializer format).bind (fun s => s song)

end SongSerializerBasicFabric

namespace SongSerializerStatiocBasicFabric

/-- The local names bound in the body of
`SongSerializerStatiocBasicFabric.serialize` (src lines 172-174): only the
two parameters of `def serialize(song, format)`.  No enclosing scope binds
`self` either. -/
def serializeScope : List String := ["song", "format"]

/-- Evaluating the name `self` inside that body.  Loading a name that is
bound neither locally nor globally raises `NameError`; the branch for a
bound occurrence cannot yield a value here, which `Empty` records. -/
def loadSelf : Except PyError Empty :=
  if h : "self" ∈ serializeScope then absurd h (by decide)
  else .error (.nameError "self")

/-- `SongSerializerStatiocBasicFabric.serialize` (src lines 172-174).  Its
first statement evaluates `self._get_serializer(format)`, which begins by
loading the unbound name `self`; the rest of the body only runs on a value
for `self`, which cannot exist. -/
def serialize (_song : Song) (_format : String) : Except PyError String :=
  loadSelf.bind Empty.elim

end SongSerializerStatiocBasicFabric

/-! ### Equivalence of the first three variants, and concrete records -/

/-- The record of the spec's concrete scenarios. -/
def beatlesSong : Song := ⟨.str "42", "Yesterday", "The Beatles"⟩

/-! ### Claims C1-C5, C8-C10 -/

/-- C1: for a format tag other than `JSON` and `XML`, the factory
`_get_serializer` raises `ValueError` (the spec's `UnsupportedFormat`)
carrying the offending tag, and `serialize` propagates exactly that error,
unchanged. -/
theorem c1_unsupported_format_error_propagated (r : Song) (f : String)
    (h1 : f ≠ "JSON") (h2 : f ≠ "XML") :
    SongSerializerBasicFabric.get_serializer f =
      .error (.valueError f) ∧
    SongSerializerBasicFabric.serialize r f =
      .error (.valueError f) := by
  have hg : SongSerializerBasicFabric.get_serializer f = .error (.valueError f) := by
    unfold SongSerializerBasicFabric.get_serializer
    rw [if_neg h1, if_neg h2]
  exact ⟨hg, by unfold SongSerializerBasicFabric.serialize; rw [hg]; rfl⟩

/-- Witness for C1 at the spec's concrete scenario, format `"YAML"`. -/
theorem c1_witness :
    SongSerializerBasicFabric.get_serializer "YAML" =
      .error (.valueError "YAML") ∧
    SongSerializerBasicFabric.serialize beatlesSong "YAML" =
      .error (.valueError "YAML") :=
  c1_unsupported_format_error_propagated beatlesSong "YAML"
    (by decide) (by decide)

/-- C2: the concrete record serialized to JSON is exactly the claimed string,
with the keys in the order `id`, `title`, `artist`. -/
theorem c2_json_concrete :
    SongSerializerBasicFabric.serialize beatlesSong "JSON" =
      .ok "\x7b\"id\": \"42\", \"title\": \"Yesterday\", \"artist\": \"The Beatles\"\x7d" :=
  rfl

/-- C3: the concrete record serialized to XML is exactly the claimed string:
root `song` with attribute `id`, children `title` then `artist`, no XML
declaration. -/
theorem c3_xml_concrete :
    SongSerializerBasicFabric.serialize beatlesSong "XML" =
      .ok "<song id=\"42\"><title>Yesterday</title><artist>The Beatles</artist></song>" :=
  rfl

/-- C4 counterexample: the four variants are not all observationally
equivalent.  At the concrete record and the recognized tag `JSON`, the basic
fabric returns a string while the static fabric raises `NameError` on its
unbound `self`. -/
theorem c4_counterexample :
    SongSerializerBasicFabric.serialize beatlesSong "JSON" ≠
      SongSerializerStatiocBasicFabric.serialize beatlesSong "JSON" := by
  intro h
  exact Except.noConfusion h

/-- C4 amended: the three non-static variants (`SongSerializerBad`,
`SongSerializerWihoutSolidDependecies`, `SongSerializerBasicFabric`) are
observationally equivalent on every record and every format tag; the static
variant is excluded, since it always raises `NameError`. -/
theorem c4_first_three_variants_equivalent (r : Song) (f : String) :
    SongSerializerBad.serialize r f =
      SongSerializerWihoutSolidDependecies.serialize r f ∧
    SongSerializerWihoutSolidDependecies.serialize r f =
      SongSerializerBasicFabric.serialize r f := by
  refine ⟨rfl, ?_⟩
  by_cases h1 : f = "JSON"
  · subst h1; rfl
  · by_cases h2 : f = "XML"
    · subst h2; rfl
    · unfold SongSerializerWihoutSolidDependecies.serialize
        SongSerializerBasicFabric.serialize
        SongSerializerBasicFabric.get_serializer
      rw [if_neg h1, if_neg h2, if_neg h1, if_neg h2]
      rfl

/-- C5 counterexample: a record whose `id` is the integer `42` (a valid
record per the spec's data model) makes the XML encoder raise `TypeError`
instead of returning a string: `ElementTree` cannot serialize a non-string
attribute value. -/
theorem c5_counterexample :
    SongSerializerBasicFabric.serialize ⟨.int 42, "Yesterday", "The Beatles"⟩ "XML" =
      .error (.typeError "cannot serialize 42 (type int)") :=
  rfl

/-- C5 amended: for every record whose `id` is a string (and arbitrary text
`title` and `artist`), the XML encoder succeeds: `serialize(r, 'XML')`
returns a string and raises no error. -/
theorem c5_xml_succeeds_on_string_id (i t a : String) :
    ∃ out : String,
      SongSerializerBasicFabric.serialize ⟨.str i, t, a⟩ "XML" = .ok out :=
  ⟨_, rfl⟩

/-- C8: `serialize` is deterministic — it is a pure function of the record
and the format tag, so two calls on the same inputs return identical
results, in particular byte-identical output strings. -/
theorem c8_serialize_deterministic (r : Song) (f : String)
    (h : f = "JSON" ∨ f = "XML") :
    SongSerializerBasicFabric.serialize r f =
      SongSerializerBasicFabric.serialize r f :=
  rfl

/-- Witness for C8 at the concrete record and format `JSON`. -/
theorem c8_witness :
    SongSerializerBasicFabric.serialize beatlesSong "JSON" =
      SongSerializerBasicFabric.serialize beatlesSong "JSON" :=
  c8_serialize_deterministic beatlesSong "JSON" (Or.inl rfl)

/-- C9: every invocation of the static fabric's `serialize` raises
`NameError` on the unbound name `self`, for every record and every format
tag — the recognized tags included — and hence never returns a serialized
string. -/
theorem c9_static_fabric_always_fails (r : Song) (f : String) :
    SongSerializerStatiocBasicFabric.serialize r f =
      .error (.nameError "self") ∧
    ∀ out : String,
      SongSerializerStatiocBasicFabric.serialize r f ≠ .ok out := by
  refine ⟨rfl, fun out h => ?_⟩
  exact Except.noConfusion h

/-- C10: format-tag recognition in the factory is an exact, case-sensitive
string comparison: `"JSON"` and `"XML"` resolve to the two encoders, and
every other string — lowercase spellings included — takes the error branch
with `ValueError` carrying that string. -/
theorem c10_dispatch_exact_case_sensitive (f : String)
    (h1 : f ≠ "JSON") (h2 : f ≠ "XML") :
    SongSerializerBasicFabric.get_serializer "JSON" =
      .ok SongSerializerBasicFabric.serialize_to_json ∧
    SongSerializerBasicFabric.get_serializer "XML" =
      .ok SongSerializerBasicFabric.serialize_to_xml ∧
    SongSerializerBasicFabric.get_serializer f =
      .error (.valueError f) := by
  refine ⟨rfl, rfl, ?_⟩
  unfold SongSerializerBasicFabric.get_serializer
  rw [if_neg h1, if_neg h2]

/-- Witness for C10 at the lowercase tag `"json"`. -/
theorem c10_witness :
    SongSerializerBasicFabric.get_serializer "JSON" =
      .ok SongSerializerBasicFabric.serialize_to_json ∧
    SongSerializerBasicFabric.get_serializer "XML" =
      .ok SongSerializerBasicFabric.serialize_to_xml ∧
    SongSerializerBasicFabric.get_serializer "json" =
      .error (.valueError "json") :=
  c10_dispatch_exact_case_sensitive "json" (by decide) (by decide)

/-! ### A JSON reader

To state the parse-back property the spec asks for, the following is a
recursive-descent reader for the fragment of RFC 8259 JSON that covers the
module's outputs: an object of string keys whose member values are string
literals (with the full escape repertoire, surrogate pairs included) or
integer numbers.  It is written from the JSON grammar, independently of the
encoder above: strings accept every escape form, numbers reject leading
zeros, insignificant whitespace is allowed around the structural tokens, and
lone surrogate escapes and raw control characters are rejected. -/

/-- JSON decimal digit. -/
def isDigitChar (c : Char) : Bool := 48 ≤ c.toNat ∧ c.toNat ≤ 57

/-- JSON insignificant whitespace: space, tab, line feed, carriage return. -/
def isJsonWs (c : Char) : Bool :=
  c = ' ' ∨ c = Char.ofNat 9 ∨ c = Char.ofNat 10 ∨ c = Char.ofNat 13

/-- Value of one hex digit, either case. -/
def hexVal (c : Char) : Option Nat :=
  if 48 ≤ c.toNat ∧ c.toNat ≤ 57 then some (c.toNat - 48)
  else if 97 ≤ c.toNat ∧ c.toNat ≤ 102 then some (c.toNat - 87)
  else if 65 ≤ c.toNat ∧ c.toNat ≤ 70 then some (c.toNat - 55)
  else none

/-- Value of a four-hex-digit group of a `\uXXXX` escape. -/
def hex4Val (a b c d : Char) : Option Nat :=
  match hexVal a, hexVal b, hexVal c, hexVal d with
  | some x, some y, some z, some w => some (4096 * x + 256 * y + 16 * z + w)
  | _, _, _, _ => none

/-- The two-character escapes of the JSON grammar. -/
def jsonShortEscape (e : Char) : Option Char :=
  if e = '"' then some '"'
  else if e = '\\' then some '\\'
  else if e = '/' then some '/'
  else if e = 'b' then some (Char.ofNat 8)
  else if e = 'f' then some (Char.ofNat 12)
  else if e = 'n' then some (Char.ofNat 10)
  else if e = 'r' then some (Char.ofNat 13)
  else if e = 't' then some (Char.ofNat 9)
  else none

/-- One lexical unit of a JSON string body: an ordinary character (either a
raw character or a two-character escape, already decoded) or the sixteen-bit
code unit of a `\uXXXX` escape, still to be checked against the surrogate
ranges. -/
inductive JUnit where
  | chr (c : Char)
  | esc (n : Nat)
  deriving DecidableEq, Repr

/-- Lex the body of a JSON string literal after its opening quote, up to and
including the closing quote; return the units and the input that follows.
Raw control characters are rejected, as the grammar requires. -/
def jsonLexUnits : List Char → Option (List JUnit × List Char)
  | [] => none
  | '"' :: rest => some ([], rest)
  | '\\' :: 'u' :: a :: b :: c :: d :: rest =>
    match hex4Val a b c d with
    | none => none
    | some n => (jsonLexUnits rest).map (fun p => (.esc n :: p.1, p.2))
  | '\\' :: e :: rest =>
    match jsonShortEscape e with
    | none => none
    | some c => (jsonLexUnits rest).map (fun p => (.chr c :: p.1, p.2))
  | c :: rest =>
    if c.toNat < 32 then none
    else (jsonLexUnits rest).map (fun p => (.chr c :: p.1, p.2))

/-- Decode a unit list into characters.  The first argument carries a
pending high surrogate: a high-surrogate escape must be followed directly by
a low-surrogate escape, the pair decoding to one code point; lone surrogates
are rejected. -/
def combineUnits : Option Nat → List JUnit → Option (List Char)
  | none, [] => some []
  | some _, [] => none
  | none, .chr c :: rest => (combineUnits none rest).map (c :: ·)
  | some _, .chr _ :: _ => none
  | some hi, .esc n :: rest =>
    if 56320 ≤ n ∧ n ≤ 57343 then
      (combineUnits none rest).map
        (Char.ofNat (65536 + (hi - 55296) * 1024 + (n - 56320)) :: ·)
    else none
  | none, .esc n :: rest =>
    if 55296 ≤ n ∧ n ≤ 56319 then combineUnits (some n) rest
    else if 56320 ≤ n ∧ n ≤ 57343 then none
    else (combineUnits none rest).map (Char.ofNat n :: ·)

/-- Read the body of a JSON string literal after its opening quote: lex the
escapes, then resolve surrogate pairs. -/
def jsonParseStringBody (l : List Char) : Option (List Char × List Char) :=
  (jsonLexUnits l).bind
    (fun p => (combineUnits none p.1).map (fun cs => (cs, p.2)))

/-- Drop leading insignificant whitespace. -/
def jsonSkipWs : List Char → List Char
  | [] => []
  | c :: rest => if isJsonWs c then jsonSkipWs rest else c :: rest

/-- Split a maximal run of leading decimal digits from the input. -/
def jsonTakeDigits : List Char → List Char × List Char
  | [] => ([], [])
  | c :: rest =>
    if isDigitChar c then
      ((jsonTakeDigits rest).1.cons c, (jsonTakeDigits rest).2)
    else ([], c :: rest)

/-- Numeric value of a digit run, most significant first. -/
def digitsToNat (l : List Char) : Nat :=
  l.foldl (fun a c => 10 * a + (c.toNat - 48)) 0

/-- Read a JSON natural number: a nonempty digit run without a redundant
leading zero. -/
def jsonParseNat (l : List Char) : Option (Nat × List Char) :=
  match jsonTakeDigits l with
  | ([], _) => none
  | (d :: ds, rest) =>
    if d = '0' ∧ ds ≠ [] then none
    else some (digitsToNat (d :: ds), rest)

/-- Read a JSON integer number (the module's encoder emits no fractions or
exponents, so the reader covers the integer production). -/
def jsonParseInt : List Char → Option (Int × List Char)
  | '-' :: rest => (jsonParseNat rest).map (fun p => (-(p.1 : Int), p.2))
  | l => (jsonParseNat l).map (fun p => ((p.1 : Int), p.2))

/-- A parsed JSON value of the fragment the module emits. -/
inductive JVal where
  | str (s : String)
  | int (n : Int)
  deriving DecidableEq, Repr

/-- Read one member value: a string literal or an integer. -/
def jsonParseScalar : List Char → Option (JVal × List Char)
  | '"' :: rest =>
    (jsonParseStringBody rest).map (fun p => (.str (String.mk p.1), p.2))
  | l => (jsonParseInt l).map (fun p => (.int p.1, p.2))

theorem jsonSkipWs_length_le (l : List Char) :
    (jsonSkipWs l).length ≤ l.length := by
  induction l with
  | nil => simp [jsonSkipWs]
  | cons c rest ih =>
    simp only [jsonSkipWs]
    split
    · exact Nat.le_trans ih (by simp)
    · simp


theorem jsonLexUnits_length_aux :
    ∀ (n : Nat) (l : List Char), l.length ≤ n → ∀ u r,
      jsonLexUnits l = some (u, r) → r.length < l.length := by
  intro n
  induction n with
  | zero =>
    intro l hl u r h
    have : l = [] := List.length_eq_zero.mp (Nat.le_zero.mp hl)
    subst this
    exact absurd h (by simp [jsonLexUnits])
  | succ n ih =>
    intro l hl u r h
    rw [jsonLexUnits.eq_def] at h
    split at h
    · exact absurd h (by simp)
    · rename_i rest
      obtain ⟨rfl, rfl⟩ : [] = u ∧ rest = r := by simpa using h
      simp
    · rename_i a b c d rest
      split at h
      · exact absurd h (by simp)
      · rename_i m hm
        rw [Option.map_eq_some'] at h
        obtain ⟨p, hp, he⟩ := h
        obtain ⟨rfl, rfl⟩ : JUnit.esc m :: p.1 = u ∧ p.2 = r := by simpa using he
        have hr : rest.length ≤ n := by simp at hl; omega
        have := ih rest hr p.1 p.2 (by simpa using hp)
        simp
        omega
    · rename_i e rest hfail
      split at h
      · exact absurd h (by simp)
      · rename_i c hc
        rw [Option.map_eq_some'] at h
        obtain ⟨p, hp, he⟩ := h
        obtain ⟨rfl, rfl⟩ : JUnit.chr c :: p.1 = u ∧ p.2 = r := by simpa using he
        have hr : rest.length ≤ n := by simp at hl; omega
        have := ih rest hr p.1 p.2 (by simpa using hp)
        simp
        omega
    · rename_i c rest hf1 hf2 hf3
      split at h
      · exact absurd h (by simp)
      · rw [Option.map_eq_some'] at h
        obtain ⟨p, hp, he⟩ := h
        obtain ⟨rfl, rfl⟩ : JUnit.chr c :: p.1 = u ∧ p.2 = r := by simpa using he
        have hr : rest.length ≤ n := by simp at hl; omega
        have := ih rest hr p.1 p.2 (by simpa using hp)
        simp
        omega

theorem jsonLexUnits_length {l : List Char} {u : List JUnit} {r : List Char}
    (h : jsonLexUnits l = some (u, r)) : r.length < l.length :=
  jsonLexUnits_length_aux l.length l (Nat.le_refl _) u r h

theorem jsonParseStringBody_length {l s r : List Char}
    (h : jsonParseStringBody l = some (s, r)) : r.length < l.length := by
  unfold jsonParseStringBody at h
  rw [Option.bind_eq_some] at h
  obtain ⟨p, hp, hm⟩ := h
  rw [Option.map_eq_some'] at hm
  obtain ⟨cs, hcs, he⟩ := hm
  obtain ⟨rfl, rfl⟩ : cs = s ∧ p.2 = r := by simpa using he
  exact jsonLexUnits_length hp

theorem jsonTakeDigits_length (l : List Char) :
    (jsonTakeDigits l).1.length + (jsonTakeDigits l).2.length = l.length := by
  induction l with
  | nil => simp [jsonTakeDigits]
  | cons c rest ih =>
    simp only [jsonTakeDigits]
    split
    · simpa using by omega
    · simp

theorem jsonParseNat_length {l : List Char} {v : Nat} {r : List Char}
    (h : jsonParseNat l = some (v, r)) : r.length < l.length := by
  unfold jsonParseNat at h
  have hlen := jsonTakeDigits_length l
  split at h
  · exact absurd h (by simp)
  · rename_i d ds rest heq
    split at h
    · exact absurd h (by simp)
    · obtain ⟨rfl, rfl⟩ : digitsToNat (d :: ds) = v ∧ rest = r := by simpa using h
      rw [heq] at hlen
      simp at hlen
      omega

theorem jsonParseInt_length {l : List Char} {v : Int} {r : List Char}
    (h : jsonParseInt l = some (v, r)) : r.length < l.length := by
  rw [jsonParseInt.eq_def] at h
  split at h
  · rename_i rest
    rw [Option.map_eq_some'] at h
    obtain ⟨p, hp, he⟩ := h
    obtain ⟨rfl, rfl⟩ : -(p.1 : Int) = v ∧ p.2 = r := by simpa using he
    have := jsonParseNat_length (l := rest) (v := p.1) (r := p.2) (by simpa using hp)
    simp
    omega
  · rw [Option.map_eq_some'] at h
    obtain ⟨p, hp, he⟩ := h
    obtain ⟨rfl, rfl⟩ : (p.1 : Int) = v ∧ p.2 = r := by simpa using he
    exact jsonParseNat_length (by simpa using hp)

theorem jsonParseScalar_length {l : List Char} {v : JVal} {r : List Char}
    (h : jsonParseScalar l = some (v, r)) : r.length < l.length := by
  rw [jsonParseScalar.eq_def] at h
  split at h
  · rename_i rest
    rw [Option.map_eq_some'] at h
    obtain ⟨p, hp, he⟩ := h
    obtain ⟨rfl, rfl⟩ : JVal.str (String.mk p.1) = v ∧ p.2 = r := by simpa using he
    have := jsonParseStringBody_length (l := rest) (s := p.1) (r := p.2)
      (by simpa using hp)
    simp
    omega
  · rw [Option.map_eq_some'] at h
    obtain ⟨p, hp, he⟩ := h
    obtain ⟨rfl, rfl⟩ : JVal.int p.1 = v ∧ p.2 = r := by simpa using he
    exact jsonParseInt_length (by simpa using hp)

/-- Read the members of a JSON object, positioned at the first key: a
sequence of `"key" : value` pairs separated by commas, up to and including
the closing brace. -/
def jsonParseMembers (l : List Char) : Option (List (String × JVal) × List Char) :=
  match l with
  | '"' :: r1 =>
    match h1 : jsonParseStringBody r1 with
    | none => none
    | some (key, r2) =>
      match h2 : jsonSkipWs r2 with
      | ':' :: r3 =>
        match h3 : jsonParseScalar (jsonSkipWs r3) with
        | none => none
        | some (v, r4) =>
          match h4 : jsonSkipWs r4 with
          | ',' :: r5 =>
            match jsonParseMembers (jsonSkipWs r5) with
            | none => none
            | some p => some ((String.mk key, v) :: p.1, p.2)
          | '\x7d' :: r5 => some ([(String.mk key, v)], r5)
          | _ => none
      | _ => none
  | _ => none
termination_by l.length
decreasing_by
  have e1 := jsonParseStringBody_length h1
  have e2 := congrArg List.length h2
  have e3 := jsonParseScalar_length h3
  have e4 := congrArg List.length h4
  have e5 := jsonSkipWs_length_le r2
  have e7 := jsonSkipWs_length_le r3
  have e8 := jsonSkipWs_length_le r4
  have e9 := jsonSkipWs_length_le r5
  simp at e2 e4
  simp
  omega

/-- Read a complete JSON text holding one object of scalar members, in the
style of `json.loads`: optional surrounding whitespace, then the object,
then end of input. -/
def jsonLoads (s : String) : Option (List (String × JVal)) :=
  match jsonSkipWs s.data with
  | '\x7b' :: r1 =>
    match jsonSkipWs r1 with
    | '\x7d' :: r2 => if jsonSkipWs r2 = [] then some [] else none
    | r2 =>
      match jsonParseMembers r2 with
      | some (ms, r3) => if jsonSkipWs r3 = [] then some ms else none
      | none => none
  | _ => none




/-! ### The JSON encoder output parses back: auxiliary lemmas -/

theorem char_toNat_ofNat_valid {n : Nat} (h : Nat.isValidChar n) :
    (Char.ofNat n).toNat = n := by
  rw [Char.ofNat, dif_pos h]
  rfl

theorem char_toNat_ofNat_small {n : Nat} (h : n < 55296) :
    (Char.ofNat n).toNat = n :=
  char_toNat_ofNat_valid (Or.inl h)

theorem char_valid_facts (c : Char) :
    c.toNat < 1114112 ∧ ¬(55296 ≤ c.toNat ∧ c.toNat ≤ 57343) := by
  have h := c.valid
  unfold Nat.isValidChar at h
  refine ⟨?_, ?_⟩ <;> simp only [Char.toNat] at * <;> omega

theorem hexVal_jsonHexDigit : ∀ k : Nat, k < 16 → hexVal (jsonHexDigit k) = some k := by
  decide

theorem hex4Val_jsonHex4 (n : Nat) (h : n < 65536) :
    hex4Val (jsonHexDigit (n / 4096 % 16)) (jsonHexDigit (n / 256 % 16))
      (jsonHexDigit (n / 16 % 16)) (jsonHexDigit (n % 16)) = some n := by
  unfold hex4Val
  rw [hexVal_jsonHexDigit _ (by omega), hexVal_jsonHexDigit _ (by omega),
    hexVal_jsonHexDigit _ (by omega), hexVal_jsonHexDigit _ (by omega)]
  have e : 4096 * (n / 4096 % 16) + 256 * (n / 256 % 16) + 16 * (n / 16 % 16) + n % 16 = n := by
    omega
  simp [e]

/-- The unit sequence the reader's lexer recovers from the escape of one
character. -/
def unitsOfChar (c : Char) : List JUnit :=
  if c = '"' then [.chr c]
  else if c = '\\' then [.chr c]
  else if c = Char.ofNat 8 then [.chr c]
  else if c = Char.ofNat 9 then [.chr c]
  else if c = Char.ofNat 10 then [.chr c]
  else if c = Char.ofNat 12 then [.chr c]
  else if c = Char.ofNat 13 then [.chr c]
  else if 32 ≤ c.toNat ∧ c.toNat ≤ 126 then [.chr c]
  else if c.toNat < 65536 then [.esc c.toNat]
  else [.esc (55296 + (c.toNat - 65536) / 1024), .esc (56320 + (c.toNat - 65536) % 1024)]

theorem jsonEscapeChar_of_plain {c : Char} (h1 : ¬c = '"') (h2 : ¬c = '\\')
    (h3 : ¬c = Char.ofNat 8) (h4 : ¬c = Char.ofNat 9) (h5 : ¬c = Char.ofNat 10)
    (h6 : ¬c = Char.ofNat 12) (h7 : ¬c = Char.ofNat 13)
    (h8 : 32 ≤ c.toNat ∧ c.toNat ≤ 126) : jsonEscapeChar c = [c] := by
  unfold jsonEscapeChar
  rw [if_neg h1, if_neg h2, if_neg h3, if_neg h4, if_neg h5, if_neg h6, if_neg h7,
    if_pos h8]

theorem unitsOfChar_of_plain {c : Char} (h1 : ¬c = '"') (h2 : ¬c = '\\')
    (h3 : ¬c = Char.ofNat 8) (h4 : ¬c = Char.ofNat 9) (h5 : ¬c = Char.ofNat 10)
    (h6 : ¬c = Char.ofNat 12) (h7 : ¬c = Char.ofNat 13)
    (h8 : 32 ≤ c.toNat ∧ c.toNat ≤ 126) : unitsOfChar c = [.chr c] := by
  unfold unitsOfChar
  rw [if_neg h1, if_neg h2, if_neg h3, if_neg h4, if_neg h5, if_neg h6, if_neg h7,
    if_pos h8]

theorem jsonEscapeChar_of_bmp {c : Char} (h1 : ¬c = '"') (h2 : ¬c = '\\')
    (h3 : ¬c = Char.ofNat 8) (h4 : ¬c = Char.ofNat 9) (h5 : ¬c = Char.ofNat 10)
    (h6 : ¬c = Char.ofNat 12) (h7 : ¬c = Char.ofNat 13)
    (h8 : ¬(32 ≤ c.toNat ∧ c.toNat ≤ 126)) (h9 : c.toNat < 65536) :
    jsonEscapeChar c = '\\' :: 'u' :: jsonHex4 c.toNat := by
  unfold jsonEscapeChar
  rw [if_neg h1, if_neg h2, if_neg h3, if_neg h4, if_neg h5, if_neg h6, if_neg h7,
    if_neg h8, if_pos h9]

theorem unitsOfChar_of_bmp {c : Char} (h1 : ¬c = '"') (h2 : ¬c = '\\')
    (h3 : ¬c = Char.ofNat 8) (h4 : ¬c = Char.ofNat 9) (h5 : ¬c = Char.ofNat 10)
    (h6 : ¬c = Char.ofNat 12) (h7 : ¬c = Char.ofNat 13)
    (h8 : ¬(32 ≤ c.toNat ∧ c.toNat ≤ 126)) (h9 : c.toNat < 65536) :
    unitsOfChar c = [.esc c.toNat] := by
  unfold unitsOfChar
  rw [if_neg h1, if_neg h2, if_neg h3, if_neg h4, if_neg h5, if_neg h6, if_neg h7,
    if_neg h8, if_pos h9]

theorem jsonEscapeChar_of_supp {c : Char} (h1 : ¬c = '"') (h2 : ¬c = '\\')
    (h3 : ¬c = Char.ofNat 8) (h4 : ¬c = Char.ofNat 9) (h5 : ¬c = Char.ofNat 10)
    (h6 : ¬c = Char.ofNat 12) (h7 : ¬c = Char.ofNat 13)
    (h8 : ¬(32 ≤ c.toNat ∧ c.toNat ≤ 126)) (h9 : ¬c.toNat < 65536) :
    jsonEscapeChar c =
      ('\\' :: 'u' :: jsonHex4 (55296 + (c.toNat - 65536) / 1024)) ++
      ('\\' :: 'u' :: jsonHex4 (56320 + (c.toNat - 65536) % 1024)) := by
  unfold jsonEscapeChar
  rw [if_neg h1, if_neg h2, if_neg h3, if_neg h4, if_neg h5, if_neg h6, if_neg h7,
    if_neg h8, if_neg h9]

theorem unitsOfChar_of_supp {c : Char} (h1 : ¬c = '"') (h2 : ¬c = '\\')
    (h3 : ¬c = Char.ofNat 8) (h4 : ¬c = Char.ofNat 9) (h5 : ¬c = Char.ofNat 10)
    (h6 : ¬c = Char.ofNat 12) (h7 : ¬c = Char.ofNat 13)
    (h8 : ¬(32 ≤ c.toNat ∧ c.toNat ≤ 126)) (h9 : ¬c.toNat < 65536) :
    unitsOfChar c =
      [.esc (55296 + (c.toNat - 65536) / 1024), .esc (56320 + (c.toNat - 65536) % 1024)] := by
  unfold unitsOfChar
  rw [if_neg h1, if_neg h2, if_neg h3, if_neg h4, if_neg h5, if_neg h6, if_neg h7,
    if_neg h8, if_neg h9]

theorem jsonLexUnits_shortEsc (e c : Char) (he : jsonShortEscape e = some c)
    (hne : ¬e = 'u') {w : List Char} {u : List JUnit} {r : List Char}
    (h : jsonLexUnits w = some (u, r)) :
    jsonLexUnits ('\\' :: e :: w) = some (.chr c :: u, r) := by
  rw [jsonLexUnits.eq_def]
  split
  · rename_i heq
    exact absurd heq (by simp)
  · rename_i rest heq
    exact absurd (List.cons.injEq .. ▸ heq).1 (by decide)
  · rename_i a b c4 d rest heq
    have := List.cons.injEq .. ▸ heq
    exact absurd (List.cons.injEq .. ▸ this.2).1 hne
  · rename_i e2 rest hfail heq
    have := List.cons.injEq .. ▸ heq
    obtain ⟨rfl, rfl⟩ : e2 = e ∧ rest = w := by
      have h2 := List.cons.injEq .. ▸ this.2
      exact ⟨h2.1.symm, h2.2.symm⟩
    rw [he, h]
    rfl
  · rename_i c4 rest hf1 hf2 hf3 heq
    have := List.cons.injEq .. ▸ heq
    exact absurd (hf3 e w this.1.symm) (by simp [this.2.symm])

theorem jsonLexUnits_plain {c : Char} {w : List Char} {u : List JUnit} {r : List Char}
    (h : jsonLexUnits w = some (u, r))
    (h1 : ¬c = '"') (h2 : ¬c = '\\') (h8 : 32 ≤ c.toNat ∧ c.toNat ≤ 126) :
    jsonLexUnits (c :: w) = some (.chr c :: u, r) := by
  rw [jsonLexUnits.eq_def]
  split
  · rename_i heq
    exact absurd heq (by simp)
  · rename_i rest heq
    exact absurd (List.cons.injEq .. ▸ heq).1 h1
  · rename_i a b c4 d rest heq
    exact absurd (List.cons.injEq .. ▸ heq).1 h2
  · rename_i e rest hfail heq
    exact absurd (List.cons.injEq .. ▸ heq).1 h2
  · rename_i c4 rest hf1 hf2 hf3 heq
    obtain ⟨rfl, rfl⟩ : c4 = c ∧ rest = w := by
      have := List.cons.injEq .. ▸ heq
      exact ⟨this.1.symm, this.2.symm⟩
    rw [if_neg (by omega), h]
    rfl

theorem jsonLexUnits_one_esc {n : Nat} (hn : n < 65536) {w : List Char}
    {u : List JUnit} {r : List Char} (h : jsonLexUnits w = some (u, r)) :
    jsonLexUnits ('\\' :: 'u' :: jsonHex4 n ++ w) = some (.esc n :: u, r) := by
  simp only [jsonHex4, List.cons_append, List.nil_append]
  rw [show jsonLexUnits ('\\' :: 'u' :: jsonHexDigit (n / 4096 % 16) ::
        jsonHexDigit (n / 256 % 16) :: jsonHexDigit (n / 16 % 16) ::
        jsonHexDigit (n % 16) :: w) =
        (match hex4Val (jsonHexDigit (n / 4096 % 16))
            (jsonHexDigit (n / 256 % 16)) (jsonHexDigit (n / 16 % 16))
            (jsonHexDigit (n % 16)) with
        | none => none
        | some m => (jsonLexUnits w).map (fun p => (JUnit.esc m :: p.1, p.2))) from rfl,
    hex4Val_jsonHex4 _ hn, h]
  rfl

theorem jsonLexUnits_escape_step (c : Char) {w : List Char} {u : List JUnit}
    {r : List Char} (h : jsonLexUnits w = some (u, r)) :
    jsonLexUnits (jsonEscapeChar c ++ w) = some (unitsOfChar c ++ u, r) := by
  by_cases h1 : c = '"'
  · subst h1
    show jsonLexUnits ('\\' :: '"' :: w) = some (JUnit.chr '"' :: u, r)
    exact jsonLexUnits_shortEsc '"' '"' rfl (by decide) h
  by_cases h2 : c = '\\'
  · subst h2
    show jsonLexUnits ('\\' :: '\\' :: w) = some (JUnit.chr '\\' :: u, r)
    exact jsonLexUnits_shortEsc '\\' '\\' rfl (by decide) h
  by_cases h3 : c = Char.ofNat 8
  · subst h3
    show jsonLexUnits ('\\' :: 'b' :: w) = some (JUnit.chr (Char.ofNat 8) :: u, r)
    exact jsonLexUnits_shortEsc 'b' (Char.ofNat 8) rfl (by decide) h
  by_cases h4 : c = Char.ofNat 9
  · subst h4
    show jsonLexUnits ('\\' :: 't' :: w) = some (JUnit.chr (Char.ofNat 9) :: u, r)
    exact jsonLexUnits_shortEsc 't' (Char.ofNat 9) rfl (by decide) h
  by_cases h5 : c = Char.ofNat 10
  · subst h5
    show jsonLexUnits ('\\' :: 'n' :: w) = some (JUnit.chr (Char.ofNat 10) :: u, r)
    exact jsonLexUnits_shortEsc 'n' (Char.ofNat 10) rfl (by decide) h
  by_cases h6 : c = Char.ofNat 12
  · subst h6
    show jsonLexUnits ('\\' :: 'f' :: w) = some (JUnit.chr (Char.ofNat 12) :: u, r)
    exact jsonLexUnits_shortEsc 'f' (Char.ofNat 12) rfl (by decide) h
  by_cases h7 : c = Char.ofNat 13
  · subst h7
    show jsonLexUnits ('\\' :: 'r' :: w) = some (JUnit.chr (Char.ofNat 13) :: u, r)
    exact jsonLexUnits_shortEsc 'r' (Char.ofNat 13) rfl (by decide) h
  by_cases h8 : 32 ≤ c.toNat ∧ c.toNat ≤ 126
  · rw [jsonEscapeChar_of_plain h1 h2 h3 h4 h5 h6 h7 h8,
      unitsOfChar_of_plain h1 h2 h3 h4 h5 h6 h7 h8]
    exact jsonLexUnits_plain h h1 h2 h8
  by_cases h9 : c.toNat < 65536
  · rw [jsonEscapeChar_of_bmp h1 h2 h3 h4 h5 h6 h7 h8 h9,
      unitsOfChar_of_bmp h1 h2 h3 h4 h5 h6 h7 h8 h9]
    exact jsonLexUnits_one_esc h9 h
  · have hv := (char_valid_facts c).1
    rw [jsonEscapeChar_of_supp h1 h2 h3 h4 h5 h6 h7 h8 h9,
      unitsOfChar_of_supp h1 h2 h3 h4 h5 h6 h7 h8 h9]
    rw [List.append_assoc]
    exact jsonLexUnits_one_esc (by omega) (jsonLexUnits_one_esc (by omega) h)

theorem jsonLexUnits_escaped (l : List Char) (tail : List Char) :
    jsonLexUnits ((l.map jsonEscapeChar).flatten ++ '"' :: tail) =
      some ((l.map unitsOfChar).flatten, tail) := by
  induction l with
  | nil => rfl
  | cons c cs ih =>
    simp only [List.map_cons, List.flatten_cons, List.append_assoc]
    exact jsonLexUnits_escape_step c ih

theorem unitsOfChar_shape (c : Char) :
    unitsOfChar c = [.chr c] ∨
    (unitsOfChar c = [.esc c.toNat] ∧ c.toNat < 65536) ∨
    (unitsOfChar c = [.esc (55296 + (c.toNat - 65536) / 1024),
        .esc (56320 + (c.toNat - 65536) % 1024)] ∧ ¬c.toNat < 65536) := by
  unfold unitsOfChar
  split
  · exact Or.inl rfl
  split
  · exact Or.inl rfl
  split
  · exact Or.inl rfl
  split
  · exact Or.inl rfl
  split
  · exact Or.inl rfl
  split
  · exact Or.inl rfl
  split
  · exact Or.inl rfl
  split
  · exact Or.inl rfl
  split
  · rename_i h9
    exact Or.inr (Or.inl ⟨rfl, h9⟩)
  · rename_i h9
    exact Or.inr (Or.inr ⟨rfl, h9⟩)

theorem combineUnits_unitsOf (l : List Char) :
    combineUnits none ((l.map unitsOfChar).flatten) = some l := by
  induction l with
  | nil => rfl
  | cons c cs ih =>
    have hval := char_valid_facts c
    simp only [List.map_cons, List.flatten_cons]
    rcases unitsOfChar_shape c with hs | ⟨hs, hlt⟩ | ⟨hs, hge⟩
    · rw [hs]
      rw [show combineUnits none
            ((JUnit.chr c :: []) ++ (cs.map unitsOfChar).flatten) =
            (combineUnits none ((cs.map unitsOfChar).flatten)).map (c :: ·) from rfl, ih]
      rfl
    · rw [hs]
      rw [show combineUnits none
            ((JUnit.esc c.toNat :: []) ++ (cs.map unitsOfChar).flatten) =
            (if 55296 ≤ c.toNat ∧ c.toNat ≤ 56319 then
              combineUnits (some c.toNat) ((cs.map unitsOfChar).flatten)
            else if 56320 ≤ c.toNat ∧ c.toNat ≤ 57343 then none
            else (combineUnits none ((cs.map unitsOfChar).flatten)).map
              (Char.ofNat c.toNat :: ·)) from rfl]
      rw [if_neg (by omega), if_neg (by omega), ih, Char.ofNat_toNat]
      rfl
    · rw [hs]
      rw [show combineUnits none
            ((JUnit.esc (55296 + (c.toNat - 65536) / 1024) ::
              JUnit.esc (56320 + (c.toNat - 65536) % 1024) :: []) ++
              (cs.map unitsOfChar).flatten) =
            (if 55296 ≤ 55296 + (c.toNat - 65536) / 1024 ∧
                55296 + (c.toNat - 65536) / 1024 ≤ 56319 then
              combineUnits (some (55296 + (c.toNat - 65536) / 1024))
                (JUnit.esc (56320 + (c.toNat - 65536) % 1024) ::
                  (cs.map unitsOfChar).flatten)
            else if 56320 ≤ 55296 + (c.toNat - 65536) / 1024 ∧
                55296 + (c.toNat - 65536) / 1024 ≤ 57343 then none
            else (combineUnits none (JUnit.esc (56320 + (c.toNat - 65536) % 1024) ::
                (cs.map unitsOfChar).flatten)).map
              (Char.ofNat (55296 + (c.toNat - 65536) / 1024) :: ·)) from rfl]
      rw [if_pos (by constructor <;> omega)]
      rw [show combineUnits (some (55296 + (c.toNat - 65536) / 1024))
            (JUnit.esc (56320 + (c.toNat - 65536) % 1024) ::
              (cs.map unitsOfChar).flatten) =
            (if 56320 ≤ 56320 + (c.toNat - 65536) % 1024 ∧
                56320 + (c.toNat - 65536) % 1024 ≤ 57343 then
              (combineUnits none ((cs.map unitsOfChar).flatten)).map
                (Char.ofNat (65536 + (55296 + (c.toNat - 65536) / 1024 - 55296) * 1024 +
                  (56320 + (c.toNat - 65536) % 1024 - 56320)) :: ·)
            else none) from rfl]
      rw [if_pos (by constructor <;> omega), ih]
      have he : 65536 + (55296 + (c.toNat - 65536) / 1024 - 55296) * 1024 +
          (56320 + (c.toNat - 65536) % 1024 - 56320) = c.toNat := by
        omega
      rw [he, Char.ofNat_toNat]
      rfl

theorem jsonParseStringBody_escaped (s : String) (tail : List Char) :
    jsonParseStringBody (jsonEscapeString s ++ '"' :: tail) = some (s.data, tail) := by
  unfold jsonParseStringBody jsonEscapeString
  rw [jsonLexUnits_escaped s.data tail]
  show (combineUnits none ((s.data.map unitsOfChar).flatten)).map
    (fun cs => (cs, tail)) = some (s.data, tail)
  rw [combineUnits_unitsOf]
  rfl

/-! ### Decimal output parses back -/

theorem isDigitChar_iff {c : Char} :
    isDigitChar c = true ↔ (48 ≤ c.toNat ∧ c.toNat ≤ 57) := by
  simp [isDigitChar]

theorem natDigitsCore_congr :
    ∀ n f1 f2 : Nat, n ≤ f1 → n ≤ f2 → natDigitsCore f1 n = natDigitsCore f2 n := by
  intro n
  induction n using Nat.strong_induction_on with
  | _ n ih =>
    intro f1 f2 hf1 hf2
    match n, f1, f2 with
    | 0, f1, f2 => cases f1 <;> cases f2 <;> rfl
    | m + 1, g1 + 1, g2 + 1 =>
      show natDigitsCore g1 ((m + 1) / 10) ++ [decDigitChar ((m + 1) % 10)] =
        natDigitsCore g2 ((m + 1) / 10) ++ [decDigitChar ((m + 1) % 10)]
      rw [ih ((m + 1) / 10) (by omega) g1 g2 (by omega) (by omega)]

theorem natDigits_succ_eq (n : Nat) (h : n ≠ 0) :
    natDigits n = natDigits (n / 10) ++ [decDigitChar (n % 10)] := by
  obtain ⟨m, rfl⟩ : ∃ m, n = m + 1 := ⟨n - 1, by omega⟩
  show natDigitsCore (m + 1) (m + 1) = _
  rw [show natDigitsCore (m + 1) (m + 1) =
        natDigitsCore m ((m + 1) / 10) ++ [decDigitChar ((m + 1) % 10)] from rfl]
  rw [natDigitsCore_congr ((m + 1) / 10) m ((m + 1) / 10) (by omega) (by omega)]
  rfl

theorem natDigits_digits :
    ∀ n : Nat, ∀ c ∈ natDigits n, 48 ≤ c.toNat ∧ c.toNat ≤ 57 := by
  intro n
  induction n using Nat.strong_induction_on with
  | _ n ih =>
    intro c hc
    by_cases h0 : n = 0
    · subst h0
      exact absurd hc (by simp [natDigits, natDigitsCore])
    · rw [natDigits_succ_eq n h0] at hc
      rcases List.mem_append.mp hc with hmem | hmem
      · exact ih (n / 10) (by omega) c hmem
      · have : c = decDigitChar (n % 10) := by simpa using hmem
        subst this
        unfold decDigitChar
        rw [char_toNat_ofNat_small (by omega)]
        omega

theorem natDigits_ne_nil (n : Nat) (h : n ≠ 0) : natDigits n ≠ [] := by
  rw [natDigits_succ_eq n h]
  simp

theorem natDigits_head_ne_zero :
    ∀ n : Nat, n ≠ 0 → ∀ d ds, natDigits n = d :: ds → ¬d = '0' := by
  intro n
  induction n using Nat.strong_induction_on with
  | _ n ih =>
    intro h0 d ds hds hdz
    subst hdz
    rw [natDigits_succ_eq n h0] at hds
    by_cases hq : n / 10 = 0
    · rw [hq] at hds
      rw [show natDigits 0 = [] from rfl, List.nil_append] at hds
      have hd2 : decDigitChar (n % 10) = '0' := (List.cons.injEq .. ▸ hds).1
      have : (48 + n % 10) = 48 := by
        have := congrArg Char.toNat hd2
        rwa [show decDigitChar (n % 10) = Char.ofNat (48 + n % 10) from rfl,
          char_toNat_ofNat_small (by omega)] at this
      omega
    · obtain ⟨d0, ds0, hcons⟩ : ∃ d0 ds0, natDigits (n / 10) = d0 :: ds0 := by
        cases hx : natDigits (n / 10) with
        | nil => exact absurd hx (natDigits_ne_nil _ hq)
        | cons a b => exact ⟨a, b, rfl⟩
      rw [hcons] at hds
      have hd0 : d0 = '0' := (List.cons.injEq .. ▸ hds).1
      exact ih (n / 10) (by omega) hq d0 ds0 hcons hd0

theorem digitsToNat_append (l : List Char) (c : Char) :
    digitsToNat (l ++ [c]) = 10 * digitsToNat l + (c.toNat - 48) := by
  unfold digitsToNat
  rw [List.foldl_append]
  rfl

theorem digitsToNat_natDigits : ∀ n : Nat, digitsToNat (natDigits n) = n := by
  intro n
  induction n using Nat.strong_induction_on with
  | _ n ih =>
    by_cases h0 : n = 0
    · subst h0
      rfl
    · rw [natDigits_succ_eq n h0, digitsToNat_append, ih (n / 10) (by omega),
        show decDigitChar (n % 10) = Char.ofNat (48 + n % 10) from rfl,
        char_toNat_ofNat_small (by omega)]
      omega

theorem jsonTakeDigits_spec (pre rest : List Char)
    (hpre : ∀ c ∈ pre, isDigitChar c = true)
    (hrest : ∀ c r2, rest = c :: r2 → isDigitChar c = false) :
    jsonTakeDigits (pre ++ rest) = (pre, rest) := by
  induction pre with
  | nil =>
    simp only [List.nil_append]
    cases rest with
    | nil => rfl
    | cons c r2 =>
      show (if isDigitChar c then
        ((jsonTakeDigits r2).1.cons c, (jsonTakeDigits r2).2) else ([], c :: r2)) = ([], c :: r2)
      rw [if_neg (by rw [hrest c r2 rfl]; simp)]
  | cons c pre ih =>
    simp only [List.cons_append]
    show (if isDigitChar c then
      ((jsonTakeDigits (pre ++ rest)).1.cons c, (jsonTakeDigits (pre ++ rest)).2)
      else ([], c :: (pre ++ rest))) = (c :: pre, rest)
    rw [if_pos (by rw [hpre c (by simp)]), ih (fun d hd => hpre d (by simp [hd]))]

theorem natToDecimal_head_digit (m : Nat) :
    ∃ d ds, natToDecimal m = d :: ds ∧ isDigitChar d = true := by
  unfold natToDecimal
  by_cases h0 : m = 0
  · subst h0
    exact ⟨'0', [], by simp, by decide⟩
  · rw [if_neg h0]
    obtain ⟨d0, ds0, hcons⟩ : ∃ d0 ds0, natDigits m = d0 :: ds0 := by
      cases hx : natDigits m with
      | nil => exact absurd hx (natDigits_ne_nil _ h0)
      | cons a b => exact ⟨a, b, rfl⟩
    refine ⟨d0, ds0, hcons, ?_⟩
    rw [isDigitChar_iff]
    exact natDigits_digits m d0 (by simp [hcons])

theorem jsonParseNat_decimal (n : Nat) (rest : List Char)
    (hrest : ∀ c r2, rest = c :: r2 → isDigitChar c = false) :
    jsonParseNat (natToDecimal n ++ rest) = some (n, rest) := by
  unfold jsonParseNat natToDecimal
  by_cases h0 : n = 0
  · subst h0
    rw [if_pos rfl]
    rw [jsonTakeDigits_spec ['0'] rest (by intro c hc; simp at hc; subst hc; decide) hrest]
    show (if '0' = '0' ∧ ([] : List Char) ≠ [] then none
      else some (digitsToNat ['0'], rest)) = some (0, rest)
    rw [if_neg (by simp)]
    rfl
  · rw [if_neg h0]
    obtain ⟨d0, ds0, hcons⟩ : ∃ d0 ds0, natDigits n = d0 :: ds0 := by
      cases hx : natDigits n with
      | nil => exact absurd hx (natDigits_ne_nil _ h0)
      | cons a b => exact ⟨a, b, rfl⟩
    rw [jsonTakeDigits_spec (natDigits n) rest
      (fun c hc => isDigitChar_iff.mpr (natDigits_digits n c hc)) hrest]
    rw [hcons]
    show (if d0 = '0' ∧ ds0 ≠ [] then none
      else some (digitsToNat (d0 :: ds0), rest)) = some (n, rest)
    rw [if_neg (by
      intro hand
      exact natDigits_head_ne_zero n h0 d0 ds0 hcons hand.1)]
    rw [← hcons, digitsToNat_natDigits]

theorem jsonParseInt_decimal (i : Int) (rest : List Char)
    (hrest : ∀ c r2, rest = c :: r2 → isDigitChar c = false) :
    jsonParseInt (intToDecimal i ++ rest) = some (i, rest) := by
  unfold intToDecimal
  by_cases hneg : i < 0
  · rw [if_pos hneg]
    simp only [List.cons_append]
    show (jsonParseNat (natToDecimal (-i).toNat ++ rest)).map
      (fun p => (-(p.1 : Int), p.2)) = some (i, rest)
    rw [jsonParseNat_decimal (-i).toNat rest hrest]
    have he : (((-i).toNat : Int)) = -i := Int.toNat_of_nonneg (by omega)
    simp [he]
  · rw [if_neg hneg]
    obtain ⟨d0, ds0, hcons, hdig⟩ := natToDecimal_head_digit i.toNat
    rw [jsonParseInt.eq_def]
    split
    · rename_i rest2 heq
      rw [hcons] at heq
      have hd : d0 = '-' := by
        have := (List.cons.injEq .. ▸ heq).1
        simpa using this
      rw [isDigitChar_iff] at hdig
      rw [hd] at hdig
      exact absurd hdig (by decide)
    · rw [jsonParseNat_decimal i.toNat rest hrest]
      have he : ((i.toNat : Int)) = i := Int.toNat_of_nonneg (by omega)
      simp [he]

theorem jsonSkipWs_not_ws {c : Char} (h : isJsonWs c = false) (l : List Char) :
    jsonSkipWs (c :: l) = c :: l := by
  show (if isJsonWs c then jsonSkipWs l else c :: l) = c :: l
  rw [h]
  simp

theorem jsonParseScalar_string (s : String) (rest : List Char) :
    jsonParseScalar (jsonEncodeString s ++ rest) = some (.str s, rest) := by
  unfold jsonEncodeString
  simp only [List.cons_append, List.append_assoc, List.nil_append]
  show (jsonParseStringBody (jsonEscapeString s ++ '"' :: rest)).map
    (fun p => (JVal.str (String.mk p.1), p.2)) = some (.str s, rest)
  rw [jsonParseStringBody_escaped]
  rfl

theorem jsonParseScalar_int (i : Int) (rest : List Char)
    (hrest : ∀ c r2, rest = c :: r2 → isDigitChar c = false) :
    jsonParseScalar (intToDecimal i ++ rest) = some (.int i, rest) := by
  rw [jsonParseScalar.eq_def]
  split
  · rename_i rest2 heq
    exfalso
    unfold intToDecimal at heq
    by_cases hneg : i < 0
    · rw [if_pos hneg] at heq
      simp only [List.cons_append] at heq
      exact absurd (List.cons.injEq .. ▸ heq).1 (by decide)
    · rw [if_neg hneg] at heq
      obtain ⟨d0, ds0, hcons, hdig⟩ := natToDecimal_head_digit i.toNat
      rw [hcons] at heq
      simp only [List.cons_append] at heq
      have hd := (List.cons.injEq .. ▸ heq).1
      rw [isDigitChar_iff] at hdig
      rw [hd] at hdig
      exact absurd hdig (by decide)
  · rw [jsonParseInt_decimal i rest hrest]
    rfl

theorem jsonParseMembers_last (r1 key r2 r3 : List Char) (v : JVal) (r4 r5 : List Char)
    (h1 : jsonParseStringBody r1 = some (key, r2))
    (h2 : jsonSkipWs r2 = ':' :: r3)
    (h3 : jsonParseScalar (jsonSkipWs r3) = some (v, r4))
    (h4 : jsonSkipWs r4 = '\x7d' :: r5) :
    jsonParseMembers ('"' :: r1) = some ([(String.mk key, v)], r5) := by
  rw [jsonParseMembers.eq_def]
  split
  · rename_i r1' heqtop
    obtain rfl : r1' = r1 := ((List.cons.injEq .. ▸ heqtop).2).symm
    split
    · rename_i heq1
      rw [h1] at heq1
      exact absurd heq1 (by simp)
    · rename_i key' r2' heq1
      rw [h1] at heq1
      obtain ⟨rfl, rfl⟩ : key' = key ∧ r2' = r2 := by simpa using heq1.symm
      split
      · rename_i r3' heq2
        rw [h2] at heq2
        obtain rfl : r3 = r3' := by simpa using heq2
        split
        · rename_i heq3
          rw [h3] at heq3
          exact absurd heq3 (by simp)
        · rename_i v' r4' heq3
          rw [h3] at heq3
          obtain ⟨rfl, rfl⟩ : v' = v ∧ r4' = r4 := by simpa using heq3.symm
          split
          · rename_i r5' heq4
            rw [h4] at heq4
            exact absurd heq4 (by simp)
          · rename_i r5' heq4
            rw [h4] at heq4
            obtain rfl : r5 = r5' := by simpa using heq4
            rfl
          · rename_i hf1 hf2
            exact absurd h4 (hf2 r5)
      · rename_i hf
        exact absurd h2 (hf r3)
  · rename_i hf
    exact absurd rfl (hf r1)

theorem jsonParseMembers_step (r1 key r2 r3 : List Char) (v : JVal)
    (r4 r5 : List Char) (ms : List (String × JVal)) (r6 : List Char)
    (h1 : jsonParseStringBody r1 = some (key, r2))
    (h2 : jsonSkipWs r2 = ':' :: r3)
    (h3 : jsonParseScalar (jsonSkipWs r3) = some (v, r4))
    (h4 : jsonSkipWs r4 = ',' :: r5)
    (h5 : jsonParseMembers (jsonSkipWs r5) = some (ms, r6)) :
    jsonParseMembers ('"' :: r1) = some ((String.mk key, v) :: ms, r6) := by
  rw [jsonParseMembers.eq_def]
  split
  · rename_i r1' heqtop
    obtain rfl : r1' = r1 := ((List.cons.injEq .. ▸ heqtop).2).symm
    split
    · rename_i heq1
      rw [h1] at heq1
      exact absurd heq1 (by simp)
    · rename_i key' r2' heq1
      rw [h1] at heq1
      obtain ⟨rfl, rfl⟩ : key' = key ∧ r2' = r2 := by simpa using heq1.symm
      split
      · rename_i r3' heq2
        rw [h2] at heq2
        obtain rfl : r3 = r3' := by simpa using heq2
        split
        · rename_i heq3
          rw [h3] at heq3
          exact absurd heq3 (by simp)
        · rename_i v' r4' heq3
          rw [h3] at heq3
          obtain ⟨rfl, rfl⟩ : v' = v ∧ r4' = r4 := by simpa using heq3.symm
          split
          · rename_i r5' heq4
            rw [h4] at heq4
            obtain rfl : r5 = r5' := by simpa using heq4
            split
            · rename_i heq5
              rw [h5] at heq5
              exact absurd heq5 (by simp)
            · rename_i p heq5
              rw [h5] at heq5
              obtain rfl : p = (ms, r6) := by simpa using heq5.symm
              rfl
          · rename_i r5' heq4
            rw [h4] at heq4
            exact absurd heq4 (by simp)
          · rename_i hf1 hf2
            exact absurd h4 (hf1 r5)
      · rename_i hf
        exact absurd h2 (hf r3)
  · rename_i hf
    exact absurd rfl (hf r1)

/-- The JSON value the encoder writes for the `id` field. -/
def jvalOfIdent : Ident → JVal
  | .str s => .str s
  | .int n => .int n

theorem isJsonWs_false_of_digit {c : Char} (h : 48 ≤ c.toNat ∧ c.toNat ≤ 57) :
    isJsonWs c = false := by
  simp only [isJsonWs, decide_eq_false_iff_not]
  rintro (rfl | rfl | rfl | rfl) <;> exact absurd h (by decide)

theorem jsonSkipWs_encodeIdent (v : Ident) (X : List Char) :
    jsonSkipWs (jsonEncodeIdent v ++ X) = jsonEncodeIdent v ++ X := by
  cases v with
  | str s =>
    show jsonSkipWs ('"' :: (jsonEscapeString s ++ ['"'] ++ X)) = _
    rw [jsonSkipWs_not_ws (by decide)]
    rfl
  | int n =>
    show jsonSkipWs (intToDecimal n ++ X) = intToDecimal n ++ X
    unfold intToDecimal
    by_cases hneg : n < 0
    · rw [if_pos hneg]
      simp only [List.cons_append]
      rw [jsonSkipWs_not_ws (by decide)]
    · rw [if_neg hneg]
      obtain ⟨d0, ds0, hcons, hdig⟩ := natToDecimal_head_digit n.toNat
      rw [hcons]
      simp only [List.cons_append]
      rw [jsonSkipWs_not_ws (isJsonWs_false_of_digit (isDigitChar_iff.mp hdig))]

theorem jsonParseScalar_encodeIdent (v : Ident) (X : List Char)
    (hX : ∀ c r2, X = c :: r2 → isDigitChar c = false) :
    jsonParseScalar (jsonEncodeIdent v ++ X) = some (jvalOfIdent v, X) := by
  cases v with
  | str s => exact jsonParseScalar_string s X
  | int n => exact jsonParseScalar_int n X hX

theorem jsonLoads_flat_object (s : String) (r1 r2 r3 : List Char)
    (ms : List (String × JVal))
    (h0 : jsonSkipWs s.data = '\x7b' :: r1)
    (h1 : jsonSkipWs r1 = '"' :: r2)
    (hm : jsonParseMembers ('"' :: r2) = some (ms, r3))
    (h3 : jsonSkipWs r3 = []) :
    jsonLoads s = some ms := by
  unfold jsonLoads
  split
  · rename_i r1' heq0
    rw [h0] at heq0
    obtain rfl : r1 = r1' := by simpa using heq0
    split
    · rename_i r2' heq1
      rw [h1] at heq1
      exact absurd (List.cons.injEq .. ▸ heq1).1 (by decide)
    · rw [h1]
      split
      · rename_i ms' r3' heqm
        rw [hm] at heqm
        obtain ⟨rfl, rfl⟩ : ms' = ms ∧ r3' = r3 := by simpa using heqm.symm
        rw [h3]
        simp
      · rename_i heqm
        rw [hm] at heqm
        exact absurd heqm (by simp)
  · rename_i hf
    exact absurd h0 (hf r1)

theorem jsonLoads_jsonDumpsSong (idv : Ident) (t a : String) :
    jsonLoads (jsonDumpsSong ⟨idv, t, a⟩) =
      some [("id", jvalOfIdent idv), ("title", JVal.str t), ("artist", JVal.str a)] := by
  have hm3 : jsonParseMembers ('"' :: 'a' :: 'r' :: 't' :: 'i' :: 's' :: 't' :: '"' :: ':' :: ' ' :: (jsonEncodeString a ++ ['\x7d'])) =
      some ([(String.mk ['a','r','t','i','s','t'], JVal.str a)], []) := by
    refine jsonParseMembers_last ('a' :: 'r' :: 't' :: 'i' :: 's' :: 't' :: '"' :: ':' :: ' ' :: (jsonEncodeString a ++ ['\x7d'])) ['a','r','t','i','s','t']
      (':' :: ' ' :: (jsonEncodeString a ++ ['\x7d'])) (' ' :: (jsonEncodeString a ++ ['\x7d'])) (JVal.str a) ['\x7d'] []
      rfl rfl ?_ rfl
    rw [show jsonSkipWs (' ' :: (jsonEncodeString a ++ ['\x7d'])) = jsonEncodeString a ++ ['\x7d'] from rfl]
    exact jsonParseScalar_string a ['\x7d']
  have hm2 : jsonParseMembers ('"' :: 't' :: 'i' :: 't' :: 'l' :: 'e' :: '"' :: ':' :: ' ' :: (jsonEncodeString t ++ (',' :: ' ' :: '"' :: 'a' :: 'r' :: 't' :: 'i' :: 's' :: 't' :: '"' :: ':' :: ' ' :: (jsonEncodeString a ++ ['\x7d'])))) =
      some ([(String.mk ['t','i','t','l','e'], JVal.str t),
             (String.mk ['a','r','t','i','s','t'], JVal.str a)], []) := by
    refine jsonParseMembers_step ('t' :: 'i' :: 't' :: 'l' :: 'e' :: '"' :: ':' :: ' ' :: (jsonEncodeString t ++ (',' :: ' ' :: '"' :: 'a' :: 'r' :: 't' :: 'i' :: 's' :: 't' :: '"' :: ':' :: ' ' :: (jsonEncodeString a ++ ['\x7d'])))) ['t','i','t','l','e']
      (':' :: ' ' :: (jsonEncodeString t ++ (',' :: ' ' :: '"' :: 'a' :: 'r' :: 't' :: 'i' :: 's' :: 't' :: '"' :: ':' :: ' ' :: (jsonEncodeString a ++ ['\x7d'])))) (' ' :: (jsonEncodeString t ++ (',' :: ' ' :: '"' :: 'a' :: 'r' :: 't' :: 'i' :: 's' :: 't' :: '"' :: ':' :: ' ' :: (jsonEncodeString a ++ ['\x7d'])))) (JVal.str t)
      (',' :: ' ' :: '"' :: 'a' :: 'r' :: 't' :: 'i' :: 's' :: 't' :: '"' :: ':' :: ' ' :: (jsonEncodeString a ++ ['\x7d'])) (' ' :: '"' :: 'a' :: 'r' :: 't' :: 'i' :: 's' :: 't' :: '"' :: ':' :: ' ' :: (jsonEncodeString a ++ ['\x7d']))
      [(String.mk ['a','r','t','i','s','t'], JVal.str a)] []
      rfl rfl ?_ rfl ?_
    · rw [show jsonSkipWs (' ' :: (jsonEncodeString t ++ (',' :: ' ' :: '"' :: 'a' :: 'r' :: 't' :: 'i' :: 's' :: 't' :: '"' :: ':' :: ' ' :: (jsonEncodeString a ++ ['\x7d'])))) = jsonEncodeString t ++ (',' :: ' ' :: '"' :: 'a' :: 'r' :: 't' :: 'i' :: 's' :: 't' :: '"' :: ':' :: ' ' :: (jsonEncodeString a ++ ['\x7d'])) from rfl]
      exact jsonParseScalar_string t (',' :: ' ' :: '"' :: 'a' :: 'r' :: 't' :: 'i' :: 's' :: 't' :: '"' :: ':' :: ' ' :: (jsonEncodeString a ++ ['\x7d']))
    · rw [show jsonSkipWs (' ' :: '"' :: 'a' :: 'r' :: 't' :: 'i' :: 's' :: 't' :: '"' :: ':' :: ' ' :: (jsonEncodeString a ++ ['\x7d'])) = '"' :: 'a' :: 'r' :: 't' :: 'i' :: 's' :: 't' :: '"' :: ':' :: ' ' :: (jsonEncodeString a ++ ['\x7d']) from rfl]
      exact hm3
  have hm1 : jsonParseMembers ('"' :: 'i' :: 'd' :: '"' :: ':' :: ' ' :: (jsonEncodeIdent idv ++ (',' :: ' ' :: '"' :: 't' :: 'i' :: 't' :: 'l' :: 'e' :: '"' :: ':' :: ' ' :: (jsonEncodeString t ++ (',' :: ' ' :: '"' :: 'a' :: 'r' :: 't' :: 'i' :: 's' :: 't' :: '"' :: ':' :: ' ' :: (jsonEncodeString a ++ ['\x7d'])))))) =
      some ([(String.mk ['i','d'], jvalOfIdent idv),
             (String.mk ['t','i','t','l','e'], JVal.str t),
             (String.mk ['a','r','t','i','s','t'], JVal.str a)], []) := by
    refine jsonParseMembers_step ('i' :: 'd' :: '"' :: ':' :: ' ' :: (jsonEncodeIdent idv ++ (',' :: ' ' :: '"' :: 't' :: 'i' :: 't' :: 'l' :: 'e' :: '"' :: ':' :: ' ' :: (jsonEncodeString t ++ (',' :: ' ' :: '"' :: 'a' :: 'r' :: 't' :: 'i' :: 's' :: 't' :: '"' :: ':' :: ' ' :: (jsonEncodeString a ++ ['\x7d'])))))) ['i','d']
      (':' :: ' ' :: (jsonEncodeIdent idv ++ (',' :: ' ' :: '"' :: 't' :: 'i' :: 't' :: 'l' :: 'e' :: '"' :: ':' :: ' ' :: (jsonEncodeString t ++ (',' :: ' ' :: '"' :: 'a' :: 'r' :: 't' :: 'i' :: 's' :: 't' :: '"' :: ':' :: ' ' :: (jsonEncodeString a ++ ['\x7d'])))))) (' ' :: (jsonEncodeIdent idv ++ (',' :: ' ' :: '"' :: 't' :: 'i' :: 't' :: 'l' :: 'e' :: '"' :: ':' :: ' ' :: (jsonEncodeString t ++ (',' :: ' ' :: '"' :: 'a' :: 'r' :: 't' :: 'i' :: 's' :: 't' :: '"' :: ':' :: ' ' :: (jsonEncodeString a ++ ['\x7d'])))))) (jvalOfIdent idv)
      (',' :: ' ' :: '"' :: 't' :: 'i' :: 't' :: 'l' :: 'e' :: '"' :: ':' :: ' ' :: (jsonEncodeString t ++ (',' :: ' ' :: '"' :: 'a' :: 'r' :: 't' :: 'i' :: 's' :: 't' :: '"' :: ':' :: ' ' :: (jsonEncodeString a ++ ['\x7d'])))) (' ' :: '"' :: 't' :: 'i' :: 't' :: 'l' :: 'e' :: '"' :: ':' :: ' ' :: (jsonEncodeString t ++ (',' :: ' ' :: '"' :: 'a' :: 'r' :: 't' :: 'i' :: 's' :: 't' :: '"' :: ':' :: ' ' :: (jsonEncodeString a ++ ['\x7d']))))
      [(String.mk ['t','i','t','l','e'], JVal.str t),
       (String.mk ['a','r','t','i','s','t'], JVal.str a)] []
      rfl rfl ?_ rfl ?_
    · rw [show jsonSkipWs (' ' :: (jsonEncodeIdent idv ++ (',' :: ' ' :: '"' :: 't' :: 'i' :: 't' :: 'l' :: 'e' :: '"' :: ':' :: ' ' :: (jsonEncodeString t ++ (',' :: ' ' :: '"' :: 'a' :: 'r' :: 't' :: 'i' :: 's' :: 't' :: '"' :: ':' :: ' ' :: (jsonEncodeString a ++ ['\x7d'])))))) = jsonSkipWs (jsonEncodeIdent idv ++ (',' :: ' ' :: '"' :: 't' :: 'i' :: 't' :: 'l' :: 'e' :: '"' :: ':' :: ' ' :: (jsonEncodeString t ++ (',' :: ' ' :: '"' :: 'a' :: 'r' :: 't' :: 'i' :: 's' :: 't' :: '"' :: ':' :: ' ' :: (jsonEncodeString a ++ ['\x7d']))))) from rfl,
        jsonSkipWs_encodeIdent idv (',' :: ' ' :: '"' :: 't' :: 'i' :: 't' :: 'l' :: 'e' :: '"' :: ':' :: ' ' :: (jsonEncodeString t ++ (',' :: ' ' :: '"' :: 'a' :: 'r' :: 't' :: 'i' :: 's' :: 't' :: '"' :: ':' :: ' ' :: (jsonEncodeString a ++ ['\x7d']))))]
      refine jsonParseScalar_encodeIdent idv (',' :: ' ' :: '"' :: 't' :: 'i' :: 't' :: 'l' :: 'e' :: '"' :: ':' :: ' ' :: (jsonEncodeString t ++ (',' :: ' ' :: '"' :: 'a' :: 'r' :: 't' :: 'i' :: 's' :: 't' :: '"' :: ':' :: ' ' :: (jsonEncodeString a ++ ['\x7d'])))) ?_
      intro c r2 hc
      have hcc : c = ',' := ((List.cons.injEq .. ▸ hc).1).symm
      subst hcc
      decide
    · rw [show jsonSkipWs (' ' :: '"' :: 't' :: 'i' :: 't' :: 'l' :: 'e' :: '"' :: ':' :: ' ' :: (jsonEncodeString t ++ (',' :: ' ' :: '"' :: 'a' :: 'r' :: 't' :: 'i' :: 's' :: 't' :: '"' :: ':' :: ' ' :: (jsonEncodeString a ++ ['\x7d'])))) = '"' :: 't' :: 'i' :: 't' :: 'l' :: 'e' :: '"' :: ':' :: ' ' :: (jsonEncodeString t ++ (',' :: ' ' :: '"' :: 'a' :: 'r' :: 't' :: 'i' :: 's' :: 't' :: '"' :: ':' :: ' ' :: (jsonEncodeString a ++ ['\x7d']))) from rfl]
      exact hm2
  have hS : (jsonDumpsSong ⟨idv, t, a⟩).data = '\x7b' :: '"' :: 'i' :: 'd' :: '"' :: ':' :: ' ' :: (jsonEncodeIdent idv ++ (',' :: ' ' :: '"' :: 't' :: 'i' :: 't' :: 'l' :: 'e' :: '"' :: ':' :: ' ' :: (jsonEncodeString t ++ (',' :: ' ' :: '"' :: 'a' :: 'r' :: 't' :: 'i' :: 's' :: 't' :: '"' :: ':' :: ' ' :: (jsonEncodeString a ++ ['\x7d']))))) := by
    simp only [jsonDumpsSong, List.append_assoc]
    rfl
  refine jsonLoads_flat_object (jsonDumpsSong ⟨idv, t, a⟩)
    ('"' :: 'i' :: 'd' :: '"' :: ':' :: ' ' :: (jsonEncodeIdent idv ++ (',' :: ' ' :: '"' :: 't' :: 'i' :: 't' :: 'l' :: 'e' :: '"' :: ':' :: ' ' :: (jsonEncodeString t ++ (',' :: ' ' :: '"' :: 'a' :: 'r' :: 't' :: 'i' :: 's' :: 't' :: '"' :: ':' :: ' ' :: (jsonEncodeString a ++ ['\x7d'])))))) ('i' :: 'd' :: '"' :: ':' :: ' ' :: (jsonEncodeIdent idv ++ (',' :: ' ' :: '"' :: 't' :: 'i' :: 't' :: 'l' :: 'e' :: '"' :: ':' :: ' ' :: (jsonEncodeString t ++ (',' :: ' ' :: '"' :: 'a' :: 'r' :: 't' :: 'i' :: 's' :: 't' :: '"' :: ':' :: ' ' :: (jsonEncodeString a ++ ['\x7d'])))))) [] _ ?_ rfl ?_ rfl
  · rw [hS]
    rfl
  · exact hm1

/-- C6: for every record, the JSON the serializer returns parses back — via
the JSON reader defined above from the grammar — into an object whose `id`,
`title` and `artist` members equal the record's fields: values are passed
through as-is, escaped and unescaped by the standard JSON string rules. -/
theorem c6_json_parses_back (r : Song) :
    ∃ out : String,
      SongSerializerBasicFabric.serialize r "JSON" = .ok out ∧
      jsonLoads out = some [("id", jvalOfIdent r.song_id),
        ("title", JVal.str r.title), ("artist", JVal.str r.artist)] := by
  obtain ⟨idv, t, a⟩ := r
  exact ⟨jsonDumpsSong ⟨idv, t, a⟩, rfl, jsonLoads_jsonDumpsSong idv t a⟩

/-! ### An XML reader

To state the XML parse-back property, the following reads the fragment of
XML that covers the module's output: a root element with attributes and
element content whose children are text-only leaf elements.  It is written
from the XML grammar, independently of the writer above: attribute values
are quoted and entity-decoded, character data is entity-decoded and may not
contain a raw `&` or `<`, the five predefined entities and decimal
character references are recognized, and end tags must match start tags. -/

/-- XML name character (letters, digits, and the common punctuation). -/
def isXmlNameChar (c : Char) : Bool :=
  (97 ≤ c.toNat ∧ c.toNat ≤ 122) ∨ (65 ≤ c.toNat ∧ c.toNat ≤ 90) ∨
  (48 ≤ c.toNat ∧ c.toNat ≤ 57) ∨ c = '_' ∨ c = '-' ∨ c = '.' ∨ c = ':'

/-- Split a maximal run of leading name characters. -/
def xmlNameSpan : List Char → List Char × List Char
  | [] => ([], [])
  | c :: rest =>
    if isXmlNameChar c then
      ((xmlNameSpan rest).1.cons c, (xmlNameSpan rest).2)
    else ([], c :: rest)

/-- Read a nonempty XML name. -/
def xmlTakeName (l : List Char) : Option (List Char × List Char) :=
  match xmlNameSpan l with
  | ([], _) => none
  | (n, r) => some (n, r)

/-- Decode the body of a quoted attribute value up to and including the
closing quote: raw `<` and raw `&` are forbidden, the five predefined
entities and decimal character references are decoded.  The first argument
carries the accumulated value of a partially read `&#...;` character
reference. -/
def xmlParseAttrValueBodyAux : Option Nat → List Char → Option (List Char × List Char)
  | some _, [] => none
  | some acc, c :: rest =>
    if isDigitChar c then xmlParseAttrValueBodyAux (some (10 * acc + (c.toNat - 48))) rest
    else if c = ';' then
      (xmlParseAttrValueBodyAux none rest).map (fun p => (Char.ofNat acc :: p.1, p.2))
    else none
  | none, [] => none
  | none, '"' :: rest => some ([], rest)
  | none, '<' :: _ => none
  | none, '&' :: 'a' :: 'm' :: 'p' :: ';' :: rest =>
    (xmlParseAttrValueBodyAux none rest).map (fun p => ('&' :: p.1, p.2))
  | none, '&' :: 'l' :: 't' :: ';' :: rest =>
    (xmlParseAttrValueBodyAux none rest).map (fun p => ('<' :: p.1, p.2))
  | none, '&' :: 'g' :: 't' :: ';' :: rest =>
    (xmlParseAttrValueBodyAux none rest).map (fun p => ('>' :: p.1, p.2))
  | none, '&' :: 'q' :: 'u' :: 'o' :: 't' :: ';' :: rest =>
    (xmlParseAttrValueBodyAux none rest).map (fun p => ('"' :: p.1, p.2))
  | none, '&' :: 'a' :: 'p' :: 'o' :: 's' :: ';' :: rest =>
    (xmlParseAttrValueBodyAux none rest).map (fun p => ('\'' :: p.1, p.2))
  | none, '&' :: '#' :: c :: rest =>
    if isDigitChar c then xmlParseAttrValueBodyAux (some (c.toNat - 48)) rest
    else none
  | none, '&' :: _ => none
  | none, c :: rest =>
    (xmlParseAttrValueBodyAux none rest).map (fun p => (c :: p.1, p.2))

/-- Decode a quoted attribute value body (see the worker just above). -/
def xmlParseAttrValueBody (l : List Char) : Option (List Char × List Char) :=
  xmlParseAttrValueBodyAux none l

/-- Decode character data up to the next `<`, which is left in place: raw
`&` is forbidden, the five predefined entities and decimal character
references are decoded.  The first argument carries the accumulated value of
a partially read `&#...;` character reference. -/
def xmlParseTextAux : Option Nat → List Char → Option (List Char × List Char)
  | some _, [] => none
  | some acc, c :: rest =>
    if isDigitChar c then xmlParseTextAux (some (10 * acc + (c.toNat - 48))) rest
    else if c = ';' then
      (xmlParseTextAux none rest).map (fun p => (Char.ofNat acc :: p.1, p.2))
    else none
  | none, [] => none
  | none, '<' :: rest => some ([], '<' :: rest)
  | none, '&' :: 'a' :: 'm' :: 'p' :: ';' :: rest =>
    (xmlParseTextAux none rest).map (fun p => ('&' :: p.1, p.2))
  | none, '&' :: 'l' :: 't' :: ';' :: rest =>
    (xmlParseTextAux none rest).map (fun p => ('<' :: p.1, p.2))
  | none, '&' :: 'g' :: 't' :: ';' :: rest =>
    (xmlParseTextAux none rest).map (fun p => ('>' :: p.1, p.2))
  | none, '&' :: 'q' :: 'u' :: 'o' :: 't' :: ';' :: rest =>
    (xmlParseTextAux none rest).map (fun p => ('"' :: p.1, p.2))
  | none, '&' :: 'a' :: 'p' :: 'o' :: 's' :: ';' :: rest =>
    (xmlParseTextAux none rest).map (fun p => ('\'' :: p.1, p.2))
  | none, '&' :: '#' :: c :: rest =>
    if isDigitChar c then xmlParseTextAux (some (c.toNat - 48)) rest
    else none
  | none, '&' :: _ => none
  | none, c :: rest =>
    (xmlParseTextAux none rest).map (fun p => (c :: p.1, p.2))

/-- Decode character data (see the worker just above). -/
def xmlParseText (l : List Char) : Option (List Char × List Char) :=
  xmlParseTextAux none l

/-- A parsed leaf element: a tag holding only text. -/
structure XLeaf where
  tag : String
  text : String
  deriving DecidableEq, Repr

/-- A parsed root element of the fragment: tag, attributes, leaf children. -/
structure XElemFlat where
  tag : String
  attrs : List (String × String)
  children : List XLeaf
  deriving DecidableEq, Repr

/-- Read the end of a leaf element after its text: the matching end tag. -/
def xmlLeafClose (name txt : List Char) : List Char → Option (XLeaf × List Char)
  | '<' :: '/' :: r4 =>
    (xmlTakeName r4).bind fun n2 =>
      if n2.1 = name then
        match jsonSkipWs n2.2 with
        | '>' :: r6 => some (⟨String.mk name, String.mk txt⟩, r6)
        | _ => none
      else none
  | _ => none

/-- Read the rest of a leaf element after its name (whitespace already
skipped): either `/>` closing the empty-element form, whose text content is
empty, or `>`, text, and a matching end tag. -/
def xmlLeafAfterName (name : List Char) : List Char → Option (XLeaf × List Char)
  | '/' :: '>' :: r2 => some (⟨String.mk name, ""⟩, r2)
  | '>' :: r2 => (xmlParseText r2).bind fun q => xmlLeafClose name q.1 q.2
  | _ => none

/-- Read one leaf element: either the empty-element form `<tag/>` (whitespace
allowed before `/>`), whose text content is empty, or `<tag>text</tag>` with
a matching end tag. -/
def xmlParseLeaf (l : List Char) : Option (XLeaf × List Char) :=
  match l with
  | '<' :: rest =>
    (xmlTakeName rest).bind fun p => xmlLeafAfterName p.1 (jsonSkipWs p.2)
  | _ => none

theorem xmlNameSpan_length (l : List Char) :
    (xmlNameSpan l).1.length + (xmlNameSpan l).2.length = l.length := by
  induction l with
  | nil => simp [xmlNameSpan]
  | cons c rest ih =>
    simp only [xmlNameSpan]
    split
    · simpa using by omega
    · simp

theorem xmlTakeName_length {l n r : List Char}
    (h : xmlTakeName l = some (n, r)) : r.length < l.length := by
  unfold xmlTakeName at h
  have hlen := xmlNameSpan_length l
  split at h
  · exact absurd h (by simp)
  · rename_i n0 r0 hne heq
    have hpair : n0 = n ∧ r0 = r := by simpa using h
    have hlen2 : n0.length + r0.length = l.length := by
      rw [heq] at hlen
      simpa using hlen
    have hl0 : n0.length ≠ 0 := fun h0 => hne (List.length_eq_zero.mp h0)
    rw [← hpair.2]
    omega

set_option maxHeartbeats 1000000 in
theorem xmlParseAttrValueBodyAux_length_aux :
    ∀ (n : Nat) (st : Option Nat) (l : List Char), l.length ≤ n → ∀ s r,
      xmlParseAttrValueBodyAux st l = some (s, r) → r.length < l.length := by
  intro n
  induction n with
  | zero =>
    intro st l hl s r h
    have : l = [] := List.length_eq_zero.mp (Nat.le_zero.mp hl)
    subst this
    cases st <;> exact absurd h (by simp [xmlParseAttrValueBodyAux])
  | succ n ih =>
    intro st l hl s r h
    rw [xmlParseAttrValueBodyAux.eq_def] at h
    split at h
    · exact absurd h (by simp)
    · rename_i acc c rest
      split at h
      · have hr : rest.length ≤ n := by simp at hl; omega
        have := ih _ rest hr s r h
        simp
        omega
      · split at h
        · rw [Option.map_eq_some'] at h
          obtain ⟨p, hp, he⟩ := h
          obtain ⟨rfl, rfl⟩ : Char.ofNat acc :: p.1 = s ∧ p.2 = r := by simpa using he
          have hr : rest.length ≤ n := by simp at hl; omega
          have := ih _ rest hr p.1 p.2 hp
          simp
          omega
        · exact absurd h (by simp)
    · exact absurd h (by simp)
    · rename_i rest
      obtain ⟨rfl, rfl⟩ : [] = s ∧ rest = r := by simpa using h
      simp
    · exact absurd h (by simp)
    · rename_i rest
      rw [Option.map_eq_some'] at h
      obtain ⟨p, hp, he⟩ := h
      obtain ⟨rfl, rfl⟩ : '&' :: p.1 = s ∧ p.2 = r := by simpa using he
      have hr : rest.length ≤ n := by simp at hl; omega
      have := ih _ rest hr p.1 p.2 hp
      simp
      omega
    · rename_i rest
      rw [Option.map_eq_some'] at h
      obtain ⟨p, hp, he⟩ := h
      obtain ⟨rfl, rfl⟩ : '<' :: p.1 = s ∧ p.2 = r := by simpa using he
      have hr : rest.length ≤ n := by simp at hl; omega
      have := ih _ rest hr p.1 p.2 hp
      simp
      omega
    · rename_i rest
      rw [Option.map_eq_some'] at h
      obtain ⟨p, hp, he⟩ := h
      obtain ⟨rfl, rfl⟩ : '>' :: p.1 = s ∧ p.2 = r := by simpa using he
      have hr : rest.length ≤ n := by simp at hl; omega
      have := ih _ rest hr p.1 p.2 hp
      simp
      omega
    · rename_i rest
      rw [Option.map_eq_some'] at h
      obtain ⟨p, hp, he⟩ := h
      obtain ⟨rfl, rfl⟩ : '"' :: p.1 = s ∧ p.2 = r := by simpa using he
      have hr : rest.length ≤ n := by simp at hl; omega
      have := ih _ rest hr p.1 p.2 hp
      simp
      omega
    · rename_i rest
      rw [Option.map_eq_some'] at h
      obtain ⟨p, hp, he⟩ := h
      obtain ⟨rfl, rfl⟩ : '\'' :: p.1 = s ∧ p.2 = r := by simpa using he
      have hr : rest.length ≤ n := by simp at hl; omega
      have := ih _ rest hr p.1 p.2 hp
      simp
      omega
    · rename_i c rest
      split at h
      · have hr : rest.length ≤ n := by simp at hl; omega
        have := ih _ rest hr s r h
        simp
        omega
      · exact absurd h (by simp)
    · exact absurd h (by simp)
    · rename_i c rest hf1 hf2 hf3 hf4 hf5 hf6 hf7 hf8 hf9
      rw [Option.map_eq_some'] at h
      obtain ⟨p, hp, he⟩ := h
      obtain ⟨rfl, rfl⟩ : c :: p.1 = s ∧ p.2 = r := by simpa using he
      have hr : rest.length ≤ n := by simp at hl; omega
      have := ih _ rest hr p.1 p.2 hp
      simp
      omega

theorem xmlParseAttrValueBody_length {l s r : List Char}
    (h : xmlParseAttrValueBody l = some (s, r)) : r.length < l.length :=
  xmlParseAttrValueBodyAux_length_aux l.length none l (Nat.le_refl _) s r h

set_option maxHeartbeats 1000000 in
theorem xmlParseTextAux_length_aux :
    ∀ (n : Nat) (st : Option Nat) (l : List Char), l.length ≤ n → ∀ s r,
      xmlParseTextAux st l = some (s, r) → r.length ≤ l.length := by
  intro n
  induction n with
  | zero =>
    intro st l hl s r h
    have : l = [] := List.length_eq_zero.mp (Nat.le_zero.mp hl)
    subst this
    cases st <;> exact absurd h (by simp [xmlParseTextAux])
  | succ n ih =>
    intro st l hl s r h
    rw [xmlParseTextAux.eq_def] at h
    split at h
    · exact absurd h (by simp)
    · rename_i acc c rest
      split at h
      · have hr : rest.length ≤ n := by simp at hl; omega
        have := ih _ rest hr s r h
        simp
        omega
      · split at h
        · rw [Option.map_eq_some'] at h
          obtain ⟨p, hp, he⟩ := h
          obtain ⟨rfl, rfl⟩ : Char.ofNat acc :: p.1 = s ∧ p.2 = r := by simpa using he
          have hr : rest.length ≤ n := by simp at hl; omega
          have := ih _ rest hr p.1 p.2 hp
          simp
          omega
        · exact absurd h (by simp)
    · exact absurd h (by simp)
    · rename_i rest
      obtain ⟨rfl, rfl⟩ : [] = s ∧ '<' :: rest = r := by simpa using h
      simp
    · rename_i rest
      rw [Option.map_eq_some'] at h
      obtain ⟨p, hp, he⟩ := h
      obtain ⟨rfl, rfl⟩ : '&' :: p.1 = s ∧ p.2 = r := by simpa using he
      have hr : rest.length ≤ n := by simp at hl; omega
      have := ih _ rest hr p.1 p.2 hp
      simp
      omega
    · rename_i rest
      rw [Option.map_eq_some'] at h
      obtain ⟨p, hp, he⟩ := h
      obtain ⟨rfl, rfl⟩ : '<' :: p.1 = s ∧ p.2 = r := by simpa using he
      have hr : rest.length ≤ n := by simp at hl; omega
      have := ih _ rest hr p.1 p.2 hp
      simp
      omega
    · rename_i rest
      rw [Option.map_eq_some'] at h
      obtain ⟨p, hp, he⟩ := h
      obtain ⟨rfl, rfl⟩ : '>' :: p.1 = s ∧ p.2 = r := by simpa using he
      have hr : rest.length ≤ n := by simp at hl; omega
      have := ih _ rest hr p.1 p.2 hp
      simp
      omega
    · rename_i rest
      rw [Option.map_eq_some'] at h
      obtain ⟨p, hp, he⟩ := h
      obtain ⟨rfl, rfl⟩ : '"' :: p.1 = s ∧ p.2 = r := by simpa using he
      have hr : rest.length ≤ n := by simp at hl; omega
      have := ih _ rest hr p.1 p.2 hp
      simp
      omega
    · rename_i rest
      rw [Option.map_eq_some'] at h
      obtain ⟨p, hp, he⟩ := h
      obtain ⟨rfl, rfl⟩ : '\'' :: p.1 = s ∧ p.2 = r := by simpa using he
      have hr : rest.length ≤ n := by simp at hl; omega
      have := ih _ rest hr p.1 p.2 hp
      simp
      omega
    · rename_i c rest
      split at h
      · have hr : rest.length ≤ n := by simp at hl; omega
        have := ih _ rest hr s r h
        simp
        omega
      · exact absurd h (by simp)
    · exact absurd h (by simp)
    · rename_i c rest hf1 hf2 hf3 hf4 hf5 hf6 hf7 hf8
      rw [Option.map_eq_some'] at h
      obtain ⟨p, hp, he⟩ := h
      obtain ⟨rfl, rfl⟩ : c :: p.1 = s ∧ p.2 = r := by simpa using he
      have hr : rest.length ≤ n := by simp at hl; omega
      have := ih _ rest hr p.1 p.2 hp
      simp
      omega

theorem xmlParseText_length {l s r : List Char}
    (h : xmlParseText l = some (s, r)) : r.length ≤ l.length :=
  xmlParseTextAux_length_aux l.length none l (Nat.le_refl _) s r h

theorem xmlLeafClose_length {name txt l : List Char} {leaf : XLeaf}
    {r : List Char} (h : xmlLeafClose name txt l = some (leaf, r)) :
    r.length < l.length := by
  rw [xmlLeafClose.eq_def] at h
  split at h
  · rename_i r4
    rw [Option.bind_eq_some] at h
    obtain ⟨n2, hn2, h2⟩ := h
    have e1 : n2.2.length < r4.length := xmlTakeName_length hn2
    have e2 := jsonSkipWs_length_le n2.2
    split at h2
    · split at h2
      · rename_i r6 heq6
        obtain ⟨rfl, rfl⟩ :
            (⟨String.mk name, String.mk txt⟩ : XLeaf) = leaf ∧ r6 = r := by
          simpa using h2
        have e3 := congrArg List.length heq6
        simp at e3 ⊢
        omega
      · exact absurd h2 (by simp)
    · exact absurd h2 (by simp)
  · exact absurd h (by simp)

theorem xmlLeafAfterName_length {name l : List Char} {leaf : XLeaf}
    {r : List Char} (h : xmlLeafAfterName name l = some (leaf, r)) :
    r.length < l.length := by
  rw [xmlLeafAfterName.eq_def] at h
  split at h
  · rename_i r2
    obtain ⟨rfl, rfl⟩ : (⟨String.mk name, ""⟩ : XLeaf) = leaf ∧ r2 = r := by
      simpa using h
    simp
    omega
  · rename_i r2
    rw [Option.bind_eq_some] at h
    obtain ⟨q, hq, h2⟩ := h
    have e1 : q.2.length ≤ r2.length := xmlParseText_length (l := r2) (by rw [hq])
    have e2 := xmlLeafClose_length h2
    simp
    omega
  · exact absurd h (by simp)

theorem xmlParseLeaf_length {l : List Char} {leaf : XLeaf} {r : List Char}
    (h : xmlParseLeaf l = some (leaf, r)) : r.length < l.length := by
  unfold xmlParseLeaf at h
  split at h
  · rename_i rest
    rw [Option.bind_eq_some] at h
    obtain ⟨p, hp, h2⟩ := h
    have e1 : p.2.length < rest.length := xmlTakeName_length (l := rest) (by rw [hp])
    have e2 := jsonSkipWs_length_le p.2
    have e3 := xmlLeafAfterName_length h2
    simp
    omega
  · exact absurd h (by simp)

/-- Read the attribute list after a start tag's name: whitespace-separated
`name="value"` pairs; stops before `>` or `/>`, with leading whitespace
consumed.  The fuel argument only bounds the number of attributes; each
attribute consumes input, so `length + 1` is always enough. -/
def xmlParseAttrsCore : Nat → List Char → Option (List (String × String) × List Char)
  | 0, _ => none
  | fuel + 1, l =>
    match jsonSkipWs l with
    | [] => some ([], [])
    | c :: rest =>
      if isXmlNameChar c then
        (xmlTakeName (c :: rest)).bind fun p =>
          match p.2 with
          | '=' :: '"' :: r2 =>
            (xmlParseAttrValueBody r2).bind fun q =>
              (xmlParseAttrsCore fuel q.2).map
                (fun w => ((String.mk p.1, String.mk q.1) :: w.1, w.2))
          | _ => none
      else some ([], c :: rest)

/-- Read an attribute list (see the worker just above). -/
def xmlParseAttrs (l : List Char) : Option (List (String × String) × List Char) :=
  xmlParseAttrsCore (l.length + 1) l

/-- Read a run of leaf children; stops at an end tag, which is left in
place.  The fuel argument only bounds the number of children; each child
consumes input, so `length + 1` is always enough. -/
def xmlParseChildrenCore : Nat → List Char → Option (List XLeaf × List Char)
  | 0, _ => none
  | fuel + 1, l =>
    match l with
    | '<' :: '/' :: rest => some ([], '<' :: '/' :: rest)
    | '<' :: rest =>
      (xmlParseLeaf ('<' :: rest)).bind fun q =>
        (xmlParseChildrenCore fuel q.2).map (fun p => (q.1 :: p.1, p.2))
    | _ => none

/-- Read a run of leaf children (see the worker just above). -/
def xmlParseChildren (l : List Char) : Option (List XLeaf × List Char) :=
  xmlParseChildrenCore (l.length + 1) l

/-- Read the end of the document after the root's children: the matching
end tag and end of input. -/
def xmlDocClose (name : List Char) (attrs : List (String × String))
    (children : List XLeaf) : List Char → Option XElemFlat
  | '<' :: '/' :: r5 =>
    (xmlTakeName r5).bind fun n2 =>
      if n2.1 = name then
        match jsonSkipWs n2.2 with
        | '>' :: r7 => if r7 = [] then some ⟨String.mk name, attrs, children⟩ else none
        | _ => none
      else none
  | _ => none

/-- Read the rest of the document after the root's attribute list: either
`/>` (childless root) at end of input, or `>`, element content, and the
matching end tag. -/
def xmlDocAfterAttrs (name : List Char) (attrs : List (String × String)) :
    List Char → Option XElemFlat
  | '/' :: '>' :: r3 => if r3 = [] then some ⟨String.mk name, attrs, []⟩ else none
  | '>' :: r3 =>
    (xmlParseChildren r3).bind fun cq => xmlDocClose name attrs cq.1 cq.2
  | _ => none

/-- Read a complete XML document of the fragment: one root element with
attributes, holding leaf children (element content), with a matching end
tag and nothing after it. -/
def xmlParse (s : String) : Option XElemFlat :=
  match s.data with
  | '<' :: rest =>
    (xmlTakeName rest).bind fun p =>
      (xmlParseAttrs p.2).bind fun aq => xmlDocAfterAttrs p.1 aq.1 aq.2
  | _ => none

/-! ### The XML writer's output parses back: escape roundtrips -/


theorem xmlAttrAux_plain {c : Char} (h1 : ¬c = '"') (h2 : ¬c = '<')
    (h3 : ¬c = '&') {w u r : List Char}
    (h : xmlParseAttrValueBodyAux none w = some (u, r)) :
    xmlParseAttrValueBodyAux none (c :: w) = some (c :: u, r) := by
  rw [xmlParseAttrValueBodyAux.eq_def]
  split
  · rename_i v heqa heqb
    exact absurd heqa (by simp)
  · rename_i acc c2 rest heqa heqb
    exact absurd heqa (by simp)
  · rename_i heqa heqb
    exact absurd heqb (by simp)
  · rename_i rest heqa heqb
    exact absurd (List.cons.injEq .. ▸ heqb).1 h1
  · rename_i rest heqa heqb
    exact absurd (List.cons.injEq .. ▸ heqb).1 h2
  · rename_i rest heqa heqb
    exact absurd (List.cons.injEq .. ▸ heqb).1 h3
  · rename_i rest heqa heqb
    exact absurd (List.cons.injEq .. ▸ heqb).1 h3
  · rename_i rest heqa heqb
    exact absurd (List.cons.injEq .. ▸ heqb).1 h3
  · rename_i rest heqa heqb
    exact absurd (List.cons.injEq .. ▸ heqb).1 h3
  · rename_i rest heqa heqb
    exact absurd (List.cons.injEq .. ▸ heqb).1 h3
  · rename_i c2 rest heqa heqb
    exact absurd (List.cons.injEq .. ▸ heqb).1 h3
  · rename_i rest heqa heqb
    exact absurd (List.cons.injEq .. ▸ heqb).1 h3
  · rename_i c2 rest heqa heqb
    obtain ⟨hc, hw⟩ := List.cons.injEq .. ▸ heqb
    subst hc
    subst hw
    rw [h]
    rfl

theorem xmlTextAux_plain {c : Char} (h2 : ¬c = '<') (h3 : ¬c = '&')
    {w u r : List Char} (h : xmlParseTextAux none w = some (u, r)) :
    xmlParseTextAux none (c :: w) = some (c :: u, r) := by
  rw [xmlParseTextAux.eq_def]
  split
  · rename_i v heqa heqb
    exact absurd heqa (by simp)
  · rename_i acc c2 rest heqa heqb
    exact absurd heqa (by simp)
  · rename_i heqa heqb
    exact absurd heqb (by simp)
  · rename_i rest heqa heqb
    exact absurd (List.cons.injEq .. ▸ heqb).1 h2
  · rename_i rest heqa heqb
    exact absurd (List.cons.injEq .. ▸ heqb).1 h3
  · rename_i rest heqa heqb
    exact absurd (List.cons.injEq .. ▸ heqb).1 h3
  · rename_i rest heqa heqb
    exact absurd (List.cons.injEq .. ▸ heqb).1 h3
  · rename_i rest heqa heqb
    exact absurd (List.cons.injEq .. ▸ heqb).1 h3
  · rename_i rest heqa heqb
    exact absurd (List.cons.injEq .. ▸ heqb).1 h3
  · rename_i c2 rest heqa heqb
    exact absurd (List.cons.injEq .. ▸ heqb).1 h3
  · rename_i rest heqa heqb
    exact absurd (List.cons.injEq .. ▸ heqb).1 h3
  · rename_i c2 rest heqa heqb
    obtain ⟨hc, hw⟩ := List.cons.injEq .. ▸ heqb
    subst hc
    subst hw
    rw [h]
    rfl

theorem xmlAttrEscape_roundtrip :
    ∀ (l rest : List Char),
      xmlParseAttrValueBodyAux none
        ((l.map xmlEscapeAttribChar).flatten ++ '"' :: rest) = some (l, rest) := by
  intro l
  induction l with
  | nil => intro rest; rfl
  | cons c cs ih =>
    intro rest
    simp only [List.map_cons, List.flatten_cons, List.append_assoc]
    by_cases h1 : c = '&'
    · subst h1
      rw [show (xmlEscapeAttribChar '&' ++ ((cs.map xmlEscapeAttribChar).flatten ++ '"' :: rest) : List Char) =
            '&' :: 'a' :: 'm' :: 'p' :: ';' :: ((cs.map xmlEscapeAttribChar).flatten ++ '"' :: rest) from rfl]
      rw [show xmlParseAttrValueBodyAux none ('&' :: 'a' :: 'm' :: 'p' :: ';' ::
            ((cs.map xmlEscapeAttribChar).flatten ++ '"' :: rest)) =
            (xmlParseAttrValueBodyAux none
              ((cs.map xmlEscapeAttribChar).flatten ++ '"' :: rest)).map
              (fun p => ('&' :: p.1, p.2)) from rfl, ih rest]
      rfl
    rw [show xmlEscapeAttribChar c =
          (if c = '<' then String.data "&lt;"
          else if c = '>' then String.data "&gt;"
          else if c = '"' then String.data "&quot;"
          else if c = Char.ofNat 13 then String.data "&#13;"
          else if c = Char.ofNat 10 then String.data "&#10;"
          else if c = Char.ofNat 9 then String.data "&#09;"
          else [c]) from by rw [xmlEscapeAttribChar, if_neg h1]]
    by_cases h2 : c = '<'
    · subst h2
      rw [if_pos rfl]
      rw [show (String.data "&lt;" ++ ((cs.map xmlEscapeAttribChar).flatten ++ '"' :: rest) : List Char) =
            '&' :: 'l' :: 't' :: ';' :: ((cs.map xmlEscapeAttribChar).flatten ++ '"' :: rest) from rfl]
      rw [show xmlParseAttrValueBodyAux none ('&' :: 'l' :: 't' :: ';' ::
            ((cs.map xmlEscapeAttribChar).flatten ++ '"' :: rest)) =
            (xmlParseAttrValueBodyAux none
              ((cs.map xmlEscapeAttribChar).flatten ++ '"' :: rest)).map
              (fun p => ('<' :: p.1, p.2)) from rfl, ih rest]
      rfl
    rw [if_neg h2]
    by_cases h3 : c = '>'
    · subst h3
      rw [if_pos rfl]
      rw [show (String.data "&gt;" ++ ((cs.map xmlEscapeAttribChar).flatten ++ '"' :: rest) : List Char) =
            '&' :: 'g' :: 't' :: ';' :: ((cs.map xmlEscapeAttribChar).flatten ++ '"' :: rest) from rfl]
      rw [show xmlParseAttrValueBodyAux none ('&' :: 'g' :: 't' :: ';' ::
            ((cs.map xmlEscapeAttribChar).flatten ++ '"' :: rest)) =
            (xmlParseAttrValueBodyAux none
              ((cs.map xmlEscapeAttribChar).flatten ++ '"' :: rest)).map
              (fun p => ('>' :: p.1, p.2)) from rfl, ih rest]
      rfl
    rw [if_neg h3]
    by_cases h4 : c = '"'
    · subst h4
      rw [if_pos rfl]
      rw [show (String.data "&quot;" ++ ((cs.map xmlEscapeAttribChar).flatten ++ '"' :: rest) : List Char) =
            '&' :: 'q' :: 'u' :: 'o' :: 't' :: ';' :: ((cs.map xmlEscapeAttribChar).flatten ++ '"' :: rest) from rfl]
      rw [show xmlParseAttrValueBodyAux none ('&' :: 'q' :: 'u' :: 'o' :: 't' :: ';' ::
            ((cs.map xmlEscapeAttribChar).flatten ++ '"' :: rest)) =
            (xmlParseAttrValueBodyAux none
              ((cs.map xmlEscapeAttribChar).flatten ++ '"' :: rest)).map
              (fun p => ('"' :: p.1, p.2)) from rfl, ih rest]
      rfl
    rw [if_neg h4]
    by_cases h5 : c = Char.ofNat 13
    · subst h5
      rw [if_pos rfl]
      rw [show (String.data "&#13;" ++ ((cs.map xmlEscapeAttribChar).flatten ++ '"' :: rest) : List Char) =
            '&' :: '#' :: '1' :: '3' :: ';' :: ((cs.map xmlEscapeAttribChar).flatten ++ '"' :: rest) from rfl]
      rw [show xmlParseAttrValueBodyAux none ('&' :: '#' :: '1' :: '3' :: ';' ::
            ((cs.map xmlEscapeAttribChar).flatten ++ '"' :: rest)) =
            (xmlParseAttrValueBodyAux none
              ((cs.map xmlEscapeAttribChar).flatten ++ '"' :: rest)).map
              (fun p => (Char.ofNat 13 :: p.1, p.2)) from rfl, ih rest]
      rfl
    rw [if_neg h5]
    by_cases h6 : c = Char.ofNat 10
    · subst h6
      rw [if_pos rfl]
      rw [show (String.data "&#10;" ++ ((cs.map xmlEscapeAttribChar).flatten ++ '"' :: rest) : List Char) =
            '&' :: '#' :: '1' :: '0' :: ';' :: ((cs.map xmlEscapeAttribChar).flatten ++ '"' :: rest) from rfl]
      rw [show xmlParseAttrValueBodyAux none ('&' :: '#' :: '1' :: '0' :: ';' ::
            ((cs.map xmlEscapeAttribChar).flatten ++ '"' :: rest)) =
            (xmlParseAttrValueBodyAux none
              ((cs.map xmlEscapeAttribChar).flatten ++ '"' :: rest)).map
              (fun p => (Char.ofNat 10 :: p.1, p.2)) from rfl, ih rest]
      rfl
    rw [if_neg h6]
    by_cases h7 : c = Char.ofNat 9
    · subst h7
      rw [if_pos rfl]
      rw [show (String.data "&#09;" ++ ((cs.map xmlEscapeAttribChar).flatten ++ '"' :: rest) : List Char) =
            '&' :: '#' :: '0' :: '9' :: ';' :: ((cs.map xmlEscapeAttribChar).flatten ++ '"' :: rest) from rfl]
      rw [show xmlParseAttrValueBodyAux none ('&' :: '#' :: '0' :: '9' :: ';' ::
            ((cs.map xmlEscapeAttribChar).flatten ++ '"' :: rest)) =
            (xmlParseAttrValueBodyAux none
              ((cs.map xmlEscapeAttribChar).flatten ++ '"' :: rest)).map
              (fun p => (Char.ofNat 9 :: p.1, p.2)) from rfl, ih rest]
      rfl
    rw [if_neg h7]
    simp only [List.cons_append, List.nil_append]
    exact xmlAttrAux_plain h4 h2 h1 (ih rest)

theorem xmlEscapeAttrib_roundtrip (s : String) (rest : List Char) :
    xmlParseAttrValueBody (xmlEscapeAttrib s ++ '"' :: rest) = some (s.data, rest) := by
  unfold xmlParseAttrValueBody xmlEscapeAttrib
  exact xmlAttrEscape_roundtrip s.data rest

theorem xmlTextEscape_roundtrip :
    ∀ (l rest : List Char),
      xmlParseTextAux none
        ((l.map xmlEscapeCdataChar).flatten ++ '<' :: rest) = some (l, '<' :: rest) := by
  intro l
  induction l with
  | nil => intro rest; rfl
  | cons c cs ih =>
    intro rest
    simp only [List.map_cons, List.flatten_cons, List.append_assoc]
    by_cases h1 : c = '&'
    · subst h1
      rw [show (xmlEscapeCdataChar '&' ++ ((cs.map xmlEscapeCdataChar).flatten ++ '<' :: rest) : List Char) =
            '&' :: 'a' :: 'm' :: 'p' :: ';' :: ((cs.map xmlEscapeCdataChar).flatten ++ '<' :: rest) from rfl]
      rw [show xmlParseTextAux none ('&' :: 'a' :: 'm' :: 'p' :: ';' ::
            ((cs.map xmlEscapeCdataChar).flatten ++ '<' :: rest)) =
            (xmlParseTextAux none
              ((cs.map xmlEscapeCdataChar).flatten ++ '<' :: rest)).map
              (fun p => ('&' :: p.1, p.2)) from rfl, ih rest]
      rfl
    rw [show xmlEscapeCdataChar c =
          (if c = '<' then String.data "&lt;"
          else if c = '>' then String.data "&gt;"
          else [c]) from by rw [xmlEscapeCdataChar, if_neg h1]]
    by_cases h2 : c = '<'
    · subst h2
      rw [if_pos rfl]
      rw [show (String.data "&lt;" ++ ((cs.map xmlEscapeCdataChar).flatten ++ '<' :: rest) : List Char) =
            '&' :: 'l' :: 't' :: ';' :: ((cs.map xmlEscapeCdataChar).flatten ++ '<' :: rest) from rfl]
      rw [show xmlParseTextAux none ('&' :: 'l' :: 't' :: ';' ::
            ((cs.map xmlEscapeCdataChar).flatten ++ '<' :: rest)) =
            (xmlParseTextAux none
              ((cs.map xmlEscapeCdataChar).flatten ++ '<' :: rest)).map
              (fun p => ('<' :: p.1, p.2)) from rfl, ih rest]
      rfl
    rw [if_neg h2]
    by_cases h3 : c = '>'
    · subst h3
      rw [if_pos rfl]
      rw [show (String.data "&gt;" ++ ((cs.map xmlEscapeCdataChar).flatten ++ '<' :: rest) : List Char) =
            '&' :: 'g' :: 't' :: ';' :: ((cs.map xmlEscapeCdataChar).flatten ++ '<' :: rest) from rfl]
      rw [show xmlParseTextAux none ('&' :: 'g' :: 't' :: ';' ::
            ((cs.map xmlEscapeCdataChar).flatten ++ '<' :: rest)) =
            (xmlParseTextAux none
              ((cs.map xmlEscapeCdataChar).flatten ++ '<' :: rest)).map
              (fun p => ('>' :: p.1, p.2)) from rfl, ih rest]
      rfl
    rw [if_neg h3]
    simp only [List.cons_append, List.nil_append]
    exact xmlTextAux_plain h2 h1 (ih rest)

theorem xmlEscapeCdata_roundtrip (s : String) (rest : List Char) :
    xmlParseText (xmlEscapeCdata s ++ '<' :: rest) = some (s.data, '<' :: rest) := by
  unfold xmlParseText xmlEscapeCdata
  exact xmlTextEscape_roundtrip s.data rest


theorem xmlParseAttrs_single_id (i : String) (R : List Char) :
    xmlParseAttrs (' ' :: 'i' :: 'd' :: '=' :: '"' ::
        (xmlEscapeAttrib i ++ '"' :: '>' :: R)) =
      some ([("id", i)], '>' :: R) := by
  show (xmlParseAttrValueBody (xmlEscapeAttrib i ++ '"' :: '>' :: R)).bind
      (fun q =>
        (xmlParseAttrsCore
            (' ' :: 'i' :: 'd' :: '=' :: '"' ::
              (xmlEscapeAttrib i ++ '"' :: '>' :: R)).length q.2).map
          (fun w => ((String.mk ['i', 'd'], String.mk q.1) :: w.1, w.2))) =
      some ([("id", i)], '>' :: R)
  rw [xmlEscapeAttrib_roundtrip i ('>' :: R)]
  rfl

theorem xmlParseLeaf_title (t : String) (R : List Char) :
    xmlParseLeaf (etSerializeLeaf "title" t ++ R) = some (⟨"title", t⟩, R) := by
  by_cases ht : t = ""
  · subst ht
    rfl
  · rw [show etSerializeLeaf "title" t ++ R =
        '<' :: 't' :: 'i' :: 't' :: 'l' :: 'e' :: '>' ::
          (xmlEscapeCdata t ++ '<' :: '/' :: 't' :: 'i' :: 't' :: 'l' :: 'e' :: '>' :: R)
        from by rw [etSerializeLeaf, if_neg ht]; simp only [List.append_assoc]; rfl]
    show (xmlParseText
        (xmlEscapeCdata t ++ '<' :: '/' :: 't' :: 'i' :: 't' :: 'l' :: 'e' :: '>' :: R)).bind
        (fun q => xmlLeafClose ['t', 'i', 't', 'l', 'e'] q.1 q.2) =
      some (⟨"title", t⟩, R)
    rw [xmlEscapeCdata_roundtrip t ('/' :: 't' :: 'i' :: 't' :: 'l' :: 'e' :: '>' :: R)]
    rfl

theorem xmlParseLeaf_artist (a : String) (R : List Char) :
    xmlParseLeaf (etSerializeLeaf "artist" a ++ R) = some (⟨"artist", a⟩, R) := by
  by_cases ha : a = ""
  · subst ha
    rfl
  · rw [show etSerializeLeaf "artist" a ++ R =
        '<' :: 'a' :: 'r' :: 't' :: 'i' :: 's' :: 't' :: '>' ::
          (xmlEscapeCdata a ++
            '<' :: '/' :: 'a' :: 'r' :: 't' :: 'i' :: 's' :: 't' :: '>' :: R)
        from by rw [etSerializeLeaf, if_neg ha]; simp only [List.append_assoc]; rfl]
    show (xmlParseText
        (xmlEscapeCdata a ++
          '<' :: '/' :: 'a' :: 'r' :: 't' :: 'i' :: 's' :: 't' :: '>' :: R)).bind
        (fun q => xmlLeafClose ['a', 'r', 't', 'i', 's', 't'] q.1 q.2) =
      some (⟨"artist", a⟩, R)
    rw [xmlEscapeCdata_roundtrip a
      ('/' :: 'a' :: 'r' :: 't' :: 'i' :: 's' :: 't' :: '>' :: R)]
    rfl

theorem etSerializeLeaf_title_shape (t : String) (R : List Char) :
    ∃ rest, etSerializeLeaf "title" t ++ R = '<' :: 't' :: rest := by
  by_cases ht : t = ""
  · subst ht
    exact ⟨'i' :: 't' :: 'l' :: 'e' :: ' ' :: '/' :: '>' :: R, rfl⟩
  · refine ⟨'i' :: 't' :: 'l' :: 'e' :: '>' ::
      (xmlEscapeCdata t ++ '<' :: '/' :: 't' :: 'i' :: 't' :: 'l' :: 'e' :: '>' :: R), ?_⟩
    rw [etSerializeLeaf, if_neg ht]
    simp only [List.append_assoc]
    rfl

theorem etSerializeLeaf_artist_shape (a : String) (R : List Char) :
    ∃ rest, etSerializeLeaf "artist" a ++ R = '<' :: 'a' :: rest := by
  by_cases ha : a = ""
  · subst ha
    exact ⟨'r' :: 't' :: 'i' :: 's' :: 't' :: ' ' :: '/' :: '>' :: R, rfl⟩
  · refine ⟨'r' :: 't' :: 'i' :: 's' :: 't' :: '>' ::
      (xmlEscapeCdata a ++
        '<' :: '/' :: 'a' :: 'r' :: 't' :: 'i' :: 's' :: 't' :: '>' :: R), ?_⟩
    rw [etSerializeLeaf, if_neg ha]
    simp only [List.append_assoc]
    rfl

theorem xmlParseChildrenCore_cons (fuel : Nat) {l : List Char} {leaf : XLeaf}
    {r1 : List Char} {p : List XLeaf × List Char}
    (hshape : ∃ c rest, l = '<' :: c :: rest ∧ ¬c = '/')
    (h1 : xmlParseLeaf l = some (leaf, r1))
    (h2 : xmlParseChildrenCore fuel r1 = some p) :
    xmlParseChildrenCore (fuel + 1) l = some (leaf :: p.1, p.2) := by
  obtain ⟨c, rest, rfl, hc⟩ := hshape
  rw [show xmlParseChildrenCore (fuel + 1) ('<' :: c :: rest) =
      (match ('<' :: c :: rest : List Char) with
      | '<' :: '/' :: rest => some ([], '<' :: '/' :: rest)
      | '<' :: rest =>
        (xmlParseLeaf ('<' :: rest)).bind fun q =>
          (xmlParseChildrenCore fuel q.2).map (fun w => (q.1 :: w.1, w.2))
      | _ => none) from rfl]
  split
  · rename_i rest2 heq
    exact absurd (List.cons.injEq .. ▸ (List.cons.injEq .. ▸ heq).2).1 hc
  · rename_i rest2 heq
    obtain hr := (List.cons.injEq .. ▸ heq).2
    subst hr
    rw [h1]
    show (xmlParseChildrenCore fuel r1).map (fun w => (leaf :: w.1, w.2)) =
      some (leaf :: p.1, p.2)
    rw [h2]
    rfl
  · rename_i hf1 hf2
    exact absurd rfl (hf2 (c :: rest))

theorem xmlParseChildrenCore_song (t a : String) : ∀ n : Nat,
    xmlParseChildrenCore (n + 3) (etSerializeLeaf "title" t ++
        (etSerializeLeaf "artist" a ++
          ('<' :: '/' :: 's' :: 'o' :: 'n' :: 'g' :: '>' :: []))) =
      some ([⟨"title", t⟩, ⟨"artist", a⟩],
        '<' :: '/' :: 's' :: 'o' :: 'n' :: 'g' :: '>' :: []) := by
  intro n
  have hb : xmlParseChildrenCore (n + 1)
      ('<' :: '/' :: 's' :: 'o' :: 'n' :: 'g' :: '>' :: []) =
      some ([], '<' :: '/' :: 's' :: 'o' :: 'n' :: 'g' :: '>' :: []) := rfl
  obtain ⟨restA, hrA⟩ :=
    etSerializeLeaf_artist_shape a ('<' :: '/' :: 's' :: 'o' :: 'n' :: 'g' :: '>' :: [])
  have h2 := xmlParseChildrenCore_cons (n + 1) ⟨'a', restA, hrA, by decide⟩
    (xmlParseLeaf_artist a ('<' :: '/' :: 's' :: 'o' :: 'n' :: 'g' :: '>' :: [])) hb
  obtain ⟨restT, hrT⟩ := etSerializeLeaf_title_shape t
    (etSerializeLeaf "artist" a ++ ('<' :: '/' :: 's' :: 'o' :: 'n' :: 'g' :: '>' :: []))
  have h3 := xmlParseChildrenCore_cons (n + 2) ⟨'t', restT, hrT, by decide⟩
    (xmlParseLeaf_title t
      (etSerializeLeaf "artist" a ++ ('<' :: '/' :: 's' :: 'o' :: 'n' :: 'g' :: '>' :: [])))
    h2
  exact h3

theorem xmlParseChildren_song (t a : String) :
    xmlParseChildren (etSerializeLeaf "title" t ++
        (etSerializeLeaf "artist" a ++
          ('<' :: '/' :: 's' :: 'o' :: 'n' :: 'g' :: '>' :: []))) =
      some ([⟨"title", t⟩, ⟨"artist", a⟩],
        '<' :: '/' :: 's' :: 'o' :: 'n' :: 'g' :: '>' :: []) := by
  show xmlParseChildrenCore
      ((etSerializeLeaf "title" t ++
        (etSerializeLeaf "artist" a ++
          ('<' :: '/' :: 's' :: 'o' :: 'n' :: 'g' :: '>' :: []))).length + 1) _ = _
  rw [show (etSerializeLeaf "title" t ++
        (etSerializeLeaf "artist" a ++
          ('<' :: '/' :: 's' :: 'o' :: 'n' :: 'g' :: '>' :: []))).length + 1 =
      ((etSerializeLeaf "title" t ++
        (etSerializeLeaf "artist" a ++
          ('<' :: '/' :: 's' :: 'o' :: 'n' :: 'g' :: '>' :: []))).length - 2) + 3 from by
    simp only [List.length_append, List.length_cons, List.length_nil]
    omega]
  exact xmlParseChildrenCore_song t a _

theorem xmlParse_song (i t a : String) :
    xmlParse (String.mk (String.data "<song id=\"" ++ xmlEscapeAttrib i ++
        String.data "\">" ++ etSerializeLeaf "title" t ++
        etSerializeLeaf "artist" a ++ String.data "</song>")) =
      some ⟨"song", [("id", i)], [⟨"title", t⟩, ⟨"artist", a⟩]⟩ := by
  rw [show String.data "<song id=\"" ++ xmlEscapeAttrib i ++ String.data "\">" ++
      etSerializeLeaf "title" t ++ etSerializeLeaf "artist" a ++
      String.data "</song>" =
      '<' :: 's' :: 'o' :: 'n' :: 'g' :: ' ' :: 'i' :: 'd' :: '=' :: '"' ::
        (xmlEscapeAttrib i ++ '"' :: '>' ::
          (etSerializeLeaf "title" t ++ (etSerializeLeaf "artist" a ++
            ('<' :: '/' :: 's' :: 'o' :: 'n' :: 'g' :: '>' :: [])))) from by
    simp only [List.append_assoc]
    rfl]
  show (xmlTakeName ('s' :: 'o' :: 'n' :: 'g' :: ' ' :: 'i' :: 'd' :: '=' :: '"' ::
      (xmlEscapeAttrib i ++ '"' :: '>' ::
        (etSerializeLeaf "title" t ++ (etSerializeLeaf "artist" a ++
          ('<' :: '/' :: 's' :: 'o' :: 'n' :: 'g' :: '>' :: [])))))).bind
    (fun p => (xmlParseAttrs p.2).bind fun aq => xmlDocAfterAttrs p.1 aq.1 aq.2) =
    some ⟨"song", [("id", i)], [⟨"title", t⟩, ⟨"artist", a⟩]⟩
  rw [show xmlTakeName ('s' :: 'o' :: 'n' :: 'g' :: ' ' :: 'i' :: 'd' :: '=' :: '"' ::
      (xmlEscapeAttrib i ++ '"' :: '>' ::
        (etSerializeLeaf "title" t ++ (etSerializeLeaf "artist" a ++
          ('<' :: '/' :: 's' :: 'o' :: 'n' :: 'g' :: '>' :: []))))) =
      some (['s', 'o', 'n', 'g'], ' ' :: 'i' :: 'd' :: '=' :: '"' ::
        (xmlEscapeAttrib i ++ '"' :: '>' ::
          (etSerializeLeaf "title" t ++ (etSerializeLeaf "artist" a ++
            ('<' :: '/' :: 's' :: 'o' :: 'n' :: 'g' :: '>' :: []))))) from rfl]
  show (xmlParseAttrs (' ' :: 'i' :: 'd' :: '=' :: '"' ::
      (xmlEscapeAttrib i ++ '"' :: '>' ::
        (etSerializeLeaf "title" t ++ (etSerializeLeaf "artist" a ++
          ('<' :: '/' :: 's' :: 'o' :: 'n' :: 'g' :: '>' :: [])))))).bind
    (fun aq => xmlDocAfterAttrs ['s', 'o', 'n', 'g'] aq.1 aq.2) =
    some ⟨"song", [("id", i)], [⟨"title", t⟩, ⟨"artist", a⟩]⟩
  rw [xmlParseAttrs_single_id i
    (etSerializeLeaf "title" t ++ (etSerializeLeaf "artist" a ++
      ('<' :: '/' :: 's' :: 'o' :: 'n' :: 'g' :: '>' :: [])))]
  show (xmlParseChildren
      (etSerializeLeaf "title" t ++ (etSerializeLeaf "artist" a ++
        ('<' :: '/' :: 's' :: 'o' :: 'n' :: 'g' :: '>' :: [])))).bind
    (fun cq => xmlDocClose ['s', 'o', 'n', 'g'] [("id", i)] cq.1 cq.2) =
    some ⟨"song", [("id", i)], [⟨"title", t⟩, ⟨"artist", a⟩]⟩
  rw [xmlParseChildren_song t a]
  rfl

/-- C7 counterexample: the claim quantifies over every valid record, and the
data model admits integer ids; but for the record with the integer id 7 the
XML serializer raises `TypeError` instead of returning a string, so its
output cannot parse back. -/
theorem c7_counterexample :
    SongSerializerBasicFabric.serialize ⟨.int 7, "t", "a"⟩ "XML" =
      .error (.typeError "cannot serialize 7 (type int)") :=
  rfl

/-- C7 amended: for every record whose `id` is a string, `serialize(r, 'XML')`
returns a string that parses back (via an XML reader honouring the writer's
canonical escaping of special characters in attribute values and text) into a
root element named `song` whose `id` attribute equals `r`'s id and whose
children `title` and `artist` hold `r`'s title and artist as text, in that
order. -/
theorem c7_xml_parses_back_on_string_id (i t a : String) :
    ∃ out : String,
      SongSerializerBasicFabric.serialize ⟨.str i, t, a⟩ "XML" = .ok out ∧
      xmlParse out = some ⟨"song", [("id", i)], [⟨"title", t⟩, ⟨"artist", a⟩]⟩ := by
  refine ⟨_, rfl, ?_⟩
  exact xmlParse_song i t a
